import Mathlib

/-!
# Game-state engine of `server.js`

A shallow embedding of the `Game` class of `src/server.js` (board, player
slots, move validation, move application, movement rules, win check) and of the
WebSocket handlers that drive it (connection, message, close), together with
theorems about them.

Modelling conventions.

* A board cell is `null` or a string: `Option String`, with `none` for `null`.
  The board is an array of row arrays: `List (List Cell)`.
* A player is the string handed to `applyMove` (the server passes `'A'` or
  `'B'`); `currentTurn` is a string as well.
* Row and column indices are JavaScript numbers holding small integers; they
  are modelled by `Int` (positions) and `Nat` (loop counters).
* The `move` argument is whatever the client put under the key `move`.  It is
  modelled twice.  `JsMove` is the move of the message format: `undefined`,
  `null`, or a value whose properties `character` and `direction` are each
  absent or a string.  `JsMoveRaw` is any value `JSON.parse` can return: its
  two properties may also be booleans, numbers, arrays or objects, seen through
  their truthiness and their conversion to a string.  `applyMove` and
  `onMessage` are the functions on the first, `applyMoveRaw` and `onMessageRaw`
  the same functions on the second, and the two agree on the moves of the
  message format (`applyMoveRaw_toRaw`, `onMessageRaw_toRaw`).
* `applyMove` can raise two exceptions, both `TypeError`s returned as
  `Except.error`: the read of `move.character` when `move` is `undefined` or
  `null`, and the conversion of `character` to a string in the template literal
  of line 68 when `character` is an object or array that cannot be converted
  (only `JsMoveRaw` has such values).  Both are raised before any assignment to
  the game, so the state after a throw is the state before.
* Strings are sequences of Unicode code points (no lone surrogates).
* A channel is an identity (`Nat`); `ws.send` is recorded as a pair of the
  destination and the message, and `JSON.parse` is given by its outcome: the
  text is rejected (a `SyntaxError`) or parses to a value.
-/

namespace Server

/-- Source: `const BOARD_SIZE = 5;`. -/
def BOARD_SIZE : Nat := 5

/-- A board cell: `null` (`none`) or a piece string such as `'A-P1'`. -/
abbrev Cell := Option String

/-- The board, an array of rows. -/
abbrev Board := List (List Cell)

/-- Channel identity (a WebSocket object, compared by reference). -/
abbrev Channel := Nat

/-- The object `{ A: ..., B: ... }` of player slots. -/
structure Players where
  A : Option Channel
  B : Option Channel
deriving DecidableEq, Repr

/-- A position object `{ i, j }`. -/
structure Position where
  i : Int
  j : Int
deriving DecidableEq, Repr

/-- The fields of a `Game` instance. -/
structure Game where
  board : Board
  currentTurn : String
  players : Players
  gameOver : Bool
deriving DecidableEq, Repr

/-- The value found under `move` in a client message of the message format.  A
value that is neither `undefined` nor `null` is described by its `character`
and `direction` properties, each a string or absent (`none`, which also stands
for `null`).  Properties of other types are values of `JsMoveRaw`. -/
inductive JsMove where
  | undefined
  | null
  | obj (character : Option String) (direction : Option String)
deriving DecidableEq, Repr

/-- The exception raised by a property read on `undefined` or `null`. -/
inductive JsError where
  | typeError
deriving DecidableEq, Repr

deriving instance DecidableEq for Except

/-- The object returned by `applyMove`:
`{ success: false, message }`, `{ success: true, win: true, winner }` or
`{ success: true, win: false, move: { character, direction } }`. -/
inductive MoveResult where
  | failure (message : String)
  | won (winner : String)
  | moved (character : String) (direction : String)
deriving DecidableEq, Repr

/-- The `success` property of a result. -/
def MoveResult.success : MoveResult → Bool
  | .failure _ => false
  | .won _ => true
  | .moved _ _ => true

/-- The `win` property of a result (`undefined`, hence falsy, on a failure). -/
def MoveResult.win : MoveResult → Bool
  | .won _ => true
  | _ => false

/-- The `winner` property of a result, when present. -/
def MoveResult.winner : MoveResult → Option String
  | .won w => some w
  | _ => none

/-- Read `board[i][j]` (an index outside the arrays reads as empty). -/
def Board.get (b : Board) (i j : Nat) : Cell :=
  (b.getD i []).getD j none

/-- Assign `board[i][j] = v`, for indices inside the arrays. -/
def Board.set (b : Board) (i j : Nat) (v : Cell) : Board :=
  List.set b i (List.set (b.getD i []) j v)

/-- Source: `initializeBoard` (lines 14-28). -/
def initializeBoard : Board :=
  let board : Board := List.replicate BOARD_SIZE (List.replicate BOARD_SIZE none)
  let board := board.set 4 0 (some "A-P1")
  let board := board.set 4 1 (some "A-H1")
  let board := board.set 4 2 (some "A-H2")
  let board := board.set 0 2 (some "B-H2")
  let board := board.set 0 3 (some "B-H1")
  let board := board.set 0 4 (some "B-P1")
  board

/-- Source: `Game.constructor` (lines 32-37). -/
def Game.new : Game :=
  { board := initializeBoard
    currentTurn := "A"
    players := { A := none, B := none }
    gameOver := false }

/-- JavaScript truthiness of a string-or-absent value: present and non-empty. -/
def truthy : Option String → Bool
  | none => false
  | some s => s != ""

/-- Source: `Game.isValidMove` (lines 51-55). -/
def isValidMove (g : Game) (player : String) (move : JsMove) : Except JsError Bool :=
  if g.currentTurn ≠ player then .ok false
  else
    match move with
    | .undefined => .error .typeError
    | .null => .error .typeError
    | .obj character direction =>
      if !truthy character || !truthy direction then .ok false
      else .ok true

/-- The template literal `${player}-${character}`. -/
def pieceName (player character : String) : String :=
  player ++ "-" ++ character

/-- Inner loop of the piece search (lines 67-72): columns `js` of row `i`. -/
def scanRow (b : Board) (target : String) (i : Nat) : List Nat → Option Position
  | [] => none
  | j :: js =>
    if b.get i j = some target then some { i := i, j := j }
    else scanRow b target i js

/-- Outer loop of the piece search (lines 66-74): rows `is`. -/
def scanRows (b : Board) (target : String) : List Nat → Option Position
  | [] => none
  | i :: is =>
    match scanRow b target i (List.range BOARD_SIZE) with
    | some p => some p
    | none => scanRows b target is

/-- The search for `charPos` (lines 65-74): first cell in row-major order that
holds `target`, or `none` (`null`). -/
def findCharPos (b : Board) (target : String) : Option Position :=
  scanRows b target (List.range BOARD_SIZE)

/-- Source: `Game.calculateNewPosition` (lines 106-142). -/
def calculateNewPosition (position : Position) (direction character : String) : Position :=
  let i := position.i
  let j := position.j
  if direction = "L" then { i := i, j := j - 1 }
  else if direction = "R" then { i := i, j := j + 1 }
  else if direction = "F" then { i := i - (if character = "P1" then 1 else 0), j := j }
  else if direction = "B" then { i := i + (if character = "P1" then 1 else 0), j := j }
  else if direction = "FL" then { i := i - 1, j := j - 1 }
  else if direction = "FR" then { i := i - 1, j := j + 1 }
  else if direction = "BL" then { i := i + 1, j := j - 1 }
  else if direction = "BR" then { i := i + 1, j := j + 1 }
  else { i := i, j := j }

/-- Source: `Game.isValidPosition` (lines 144-146). -/
def isValidPosition (position : Position) : Bool :=
  decide (position.i ≥ 0) && decide (position.i < BOARD_SIZE) &&
    decide (position.j ≥ 0) && decide (position.j < BOARD_SIZE)

/-- Source: `Game.checkWinCondition` (lines 148-154). -/
def checkWinCondition (position : Position) : Bool :=
  if position.i = 0 ∨ position.i = (BOARD_SIZE : Int) - 1 then true else false

/-- The test `s.charAt(0) === player`: `charAt(0)` is the first UTF-16 code
unit of `s` as a one-unit string, or `""` when `s` is empty.  The first unit of
a character outside the basic plane is a lone surrogate, equal to no player
string. -/
def charAt0Is (s player : String) : Bool :=
  match s.data with
  | [] => player == ""
  | c :: _ => decide (c.val < 0x10000) && player == String.singleton c

/-- The test `targetPiece && targetPiece.charAt(0) === player` (line 87). -/
def ownPiece (targetPiece : Cell) (player : String) : Bool :=
  match targetPiece with
  | none => false
  | some s => s != "" && charAt0Is s player

/-- Lines 64-103 of `Game.applyMove`: the part after the validity check and the
destructuring of `move`. -/
def applyChecked (g : Game) (player character direction : String) : Game × MoveResult :=
  match findCharPos g.board (pieceName player character) with
  | none => (g, .failure "Character not found on board")
  | some charPos =>
    let newPosition := calculateNewPosition charPos direction character
    if !isValidPosition newPosition then (g, .failure "Invalid move direction")
    else
      let targetPiece := g.board.get newPosition.i.toNat newPosition.j.toNat
      if ownPiece targetPiece player then
        (g, .failure "Cannot move to a position occupied by your own piece")
      else
        let board := g.board.set charPos.i.toNat charPos.j.toNat none
        let board := board.set newPosition.i.toNat newPosition.j.toNat
          (some (pieceName player character))
        if checkWinCondition newPosition then
          ({ g with board := board, gameOver := true }, .won player)
        else
          ({ g with board := board, currentTurn := if player = "A" then "B" else "A" },
            .moved character direction)

/-- Source: `Game.applyMove` (lines 57-104).  Returns the game after the call
and the returned object, or the exception thrown by `isValidMove`. -/
def applyMove (g : Game) (player : String) (move : JsMove) :
    Except JsError (Game × MoveResult) :=
  match isValidMove g player move with
  | .error e => .error e
  | .ok false => .ok (g, .failure "Invalid move")
  | .ok true =>
    match move with
    | .obj (some character) (some direction) => .ok (applyChecked g player character direction)
    -- not reached: `isValidMove` returned `true`, so both fields are non-empty strings
    | _ => .ok (g, .failure "Invalid move")

/-- Source: `Game.addPlayer` (lines 39-49).  Returns the game after the call
and the returned slot name, `none` for `null`.  A channel object is truthy, so
`!this.players.A` holds exactly when the slot is `null`. -/
def addPlayer (g : Game) (player : Channel) : Game × Option String :=
  if g.players.A = none then
    ({ g with players := { g.players with A := some player } }, some "A")
  else if g.players.B = none then
    ({ g with players := { g.players with B := some player } }, some "B")
  else (g, none)

/-- A message the server sends with `ws.send(JSON.stringify(...))`:
`{ type: 'error', message }`, `{ type: 'init', player, board, currentTurn }`, or
the broadcast `{ type, board, currentTurn, move, winner }` whose `type` is
`'win'` or `'update'`. -/
inductive OutMsg where
  | error (message : String)
  | init (player : String) (board : Board) (currentTurn : String)
  | state (type : String) (board : Board) (currentTurn : String) (move : JsMove)
      (winner : Option String)
deriving DecidableEq, Repr

/-- An element of `wss.clients`: a channel and whether its `readyState` is
`WebSocket.OPEN`. -/
structure Client where
  ws : Channel
  isOpen : Bool
deriving DecidableEq, Repr

/-- The value returned by `JSON.parse`: `null`, or any other value, described
by its `type` property (when that is a string) and its `move` property
(`undefined` when absent; a non-object value has neither). -/
inductive JsData where
  | null
  | value (type : Option String) (move : JsMove)
deriving DecidableEq, Repr

/-- The text of an inbound message: text that `JSON.parse` rejects, or text
that parses to `data`. -/
inductive Inbound where
  | notJson
  | json (data : JsData)
deriving DecidableEq, Repr

/-- An exception leaving the `message` handler: the `SyntaxError` of
`JSON.parse` or a `TypeError` of a property read on `undefined`/`null`. -/
inductive HandlerError where
  | syntaxError
  | typeError
deriving DecidableEq, Repr

/-- Source: the `connection` handler up to the registration of the message and
close handlers (lines 159-167).  Returns the game, the messages sent (each with
its destination) and whether `ws.close()` was called. -/
def onConnection (g : Game) (ws : Channel) : Game × List (Channel × OutMsg) × Bool :=
  match addPlayer g ws with
  | (g', none) => (g', [(ws, .error "Game is full")], true)
  | (g', some player) => (g', [(ws, .init player g'.board g'.currentTurn)], false)

/-- Source: the `message` handler (lines 169-189) of the channel `ws` that was
given the slot `player`, with `clients` the content of `wss.clients`.  Returns
the game after the handler and the messages sent, each with its destination, or
the exception that leaves the handler. -/
def onMessage (g : Game) (clients : List Client) (ws : Channel) (player : String)
    (message : Inbound) : Except HandlerError (Game × List (Channel × OutMsg)) :=
  match message with
  | .notJson => .error .syntaxError
  | .json .null => .error .typeError
  | .json (.value type move) =>
    if type = some "move" then
      match applyMove g player move with
      | .error .typeError => .error .typeError
      | .ok (g', .failure message) => .ok (g', [(ws, .error message)])
      | .ok (g', result) =>
        .ok (g', (clients.filter (fun client => client.isOpen)).map (fun client =>
          (client.ws,
            .state (if result.win then "win" else "update") g'.board g'.currentTurn move
              (if result.win then some player else none))))
    else .ok (g, [])

/-- Source: the `close` handler (lines 191-194). -/
def onClose (g : Game) (ws : Channel) : Game :=
  let g := if g.players.A = some ws then { g with players := { g.players with A := none } } else g
  let g := if g.players.B = some ws then { g with players := { g.players with B := none } } else g
  g

/-- A property value of a client move as `applyMove` can observe it.  A
number, an array or an object is given by its truthiness (only the number 0 is
falsy) and by the string it converts to, `none` when the conversion throws (an
object whose `toString` is not callable, an array holding such an object). -/
inductive JsField where
  | undefined
  | null
  | bool (b : Bool)
  | str (s : String)
  | other (isTruthy : Bool) (asString : Option String)
deriving DecidableEq, Repr

/-- JavaScript truthiness of a property value. -/
def JsField.truthy : JsField → Bool
  | .undefined => false
  | .null => false
  | .bool b => b
  | .str s => s != ""
  | .other t _ => t

/-- The conversion to a string made by a template literal, `none` when it
throws a `TypeError`. -/
def JsField.toStr : JsField → Option String
  | .undefined => some "undefined"
  | .null => some "null"
  | .bool b => some (if b then "true" else "false")
  | .str s => some s
  | .other _ conv => conv

/-- The value found under `move` in a client message, for any JSON text. -/
inductive JsMoveRaw where
  | undefined
  | null
  | obj (character : JsField) (direction : JsField)
deriving DecidableEq, Repr

/-- The object returned by `applyMove`, its `move` holding the two property
values as they were received. -/
inductive RawResult where
  | failure (message : String)
  | won (winner : String)
  | moved (character : JsField) (direction : JsField)
deriving DecidableEq, Repr

/-- The `success` property of a result. -/
def RawResult.success : RawResult → Bool
  | .failure _ => false
  | .won _ => true
  | .moved _ _ => true

/-- The `win` property of a result. -/
def RawResult.win : RawResult → Bool
  | .won _ => true
  | _ => false

/-- Source: `Game.isValidMove` (lines 51-55), on any move value. -/
def isValidMoveRaw (g : Game) (player : String) (move : JsMoveRaw) : Except JsError Bool :=
  if g.currentTurn ≠ player then .ok false
  else
    match move with
    | .undefined => .error .typeError
    | .null => .error .typeError
    | .obj character direction =>
      if !character.truthy || !direction.truthy then .ok false
      else .ok true

/-- Source: `Game.calculateNewPosition` (lines 106-142), on any property
values: the `switch` and the test `character === 'P1'` compare with strict
equality, so a value that is not a string equals none of the strings. -/
def calculateNewPositionRaw (position : Position) (direction character : JsField) :
    Position :=
  let i := position.i
  let j := position.j
  if direction = .str "L" then { i := i, j := j - 1 }
  else if direction = .str "R" then { i := i, j := j + 1 }
  else if direction = .str "F" then
    { i := i - (if character = .str "P1" then 1 else 0), j := j }
  else if direction = .str "B" then
    { i := i + (if character = .str "P1" then 1 else 0), j := j }
  else if direction = .str "FL" then { i := i - 1, j := j - 1 }
  else if direction = .str "FR" then { i := i - 1, j := j + 1 }
  else if direction = .str "BL" then { i := i + 1, j := j - 1 }
  else if direction = .str "BR" then { i := i + 1, j := j + 1 }
  else { i := i, j := j }

/-- Lines 64-103 of `Game.applyMove` on any property values, `text` being the
string that `character` converts to in the template literals of lines 68 and
93. -/
def applyCheckedRaw (g : Game) (player : String) (character direction : JsField)
    (text : String) : Game × RawResult :=
  match findCharPos g.board (pieceName player text) with
  | none => (g, .failure "Character not found on board")
  | some charPos =>
    let newPosition := calculateNewPositionRaw charPos direction character
    if !isValidPosition newPosition then (g, .failure "Invalid move direction")
    else
      let targetPiece := g.board.get newPosition.i.toNat newPosition.j.toNat
      if ownPiece targetPiece player then
        (g, .failure "Cannot move to a position occupied by your own piece")
      else
        let board := g.board.set charPos.i.toNat charPos.j.toNat none
        let board := board.set newPosition.i.toNat newPosition.j.toNat
          (some (pieceName player text))
        if checkWinCondition newPosition then
          ({ g with board := board, gameOver := true }, .won player)
        else
          ({ g with board := board, currentTurn := if player = "A" then "B" else "A" },
            .moved character direction)

/-- Source: `Game.applyMove` (lines 57-104), on any move value.  The template
literal of line 68 is first evaluated at cell (0,0) of the scan, so a
`character` that cannot be converted to a string throws before any cell is
compared. -/
def applyMoveRaw (g : Game) (player : String) (move : JsMoveRaw) :
    Except JsError (Game × RawResult) :=
  match isValidMoveRaw g player move with
  | .error e => .error e
  | .ok false => .ok (g, .failure "Invalid move")
  | .ok true =>
    match move with
    | .obj character direction =>
      match character.toStr with
      | none => .error .typeError
      | some text => .ok (applyCheckedRaw g player character direction text)
    -- not reached: `isValidMoveRaw` returned `true`, so `move` has properties
    | _ => .ok (g, .failure "Invalid move")

/-- A message the server sends, the broadcast carrying `data.move` as it was
received. -/
inductive OutMsgRaw where
  | error (message : String)
  | init (player : String) (board : Board) (currentTurn : String)
  | state (type : String) (board : Board) (currentTurn : String) (move : JsMoveRaw)
      (winner : Option String)
deriving DecidableEq, Repr

/-- The value returned by `JSON.parse` for any JSON text: `null`, or any other
value, described by its `type` property (when that is a string) and its `move`
property. -/
inductive JsDataRaw where
  | null
  | value (type : Option String) (move : JsMoveRaw)
deriving DecidableEq, Repr

/-- The text of an inbound message: text that `JSON.parse` rejects, or text
that parses to `data`. -/
inductive InboundRaw where
  | notJson
  | json (data : JsDataRaw)
deriving DecidableEq, Repr

/-- Source: the `message` handler (lines 169-189), on any message text. -/
def onMessageRaw (g : Game) (clients : List Client) (ws : Channel) (player : String)
    (message : InboundRaw) : Except HandlerError (Game × List (Channel × OutMsgRaw)) :=
  match message with
  | .notJson => .error .syntaxError
  | .json .null => .error .typeError
  | .json (.value type move) =>
    if type = some "move" then
      match applyMoveRaw g player move with
      | .error .typeError => .error .typeError
      | .ok (g', .failure message) => .ok (g', [(ws, .error message)])
      | .ok (g', result) =>
        .ok (g', (clients.filter (fun client => client.isOpen)).map (fun client =>
          (client.ws,
            .state (if result.win then "win" else "update") g'.board g'.currentTurn move
              (if result.win then some player else none))))
    else .ok (g, [])

end Server


namespace Server

/-! ## Vocabulary of the properties -/

/-- The owner letter of a piece string: its first character, as a string. -/
def pieceOwner (s : String) : Option String :=
  s.data.head?.map String.singleton

/-- The cell holds a piece whose owner is `player`. -/
def HoldsPieceOf (cell : Cell) (player : String) : Prop :=
  ∃ s, cell = some s ∧ pieceOwner s = some player

/-- The other slot. -/
def opponent (player : String) : String :=
  if player = "A" then "B" else "A"

/-- Number of non-null cells of the board. -/
def nonNullCount (b : Board) : Nat :=
  (b.map (fun row => row.countP (fun cell => cell.isSome))).sum

/-- Cell `(i, j)` is the first cell of the 5x5 grid, in row-major order, that
holds the string `target`. -/
def FirstCell (b : Board) (target : String) (i j : Nat) : Prop :=
  i < BOARD_SIZE ∧ j < BOARD_SIZE ∧ b.get i j = some target ∧
    ∀ i' j', i' < BOARD_SIZE → j' < BOARD_SIZE → (i' < i ∨ (i' = i ∧ j' < j)) →
      b.get i' j' ≠ some target

/-- Both coordinates lie in `[0, 5)`. -/
def OnBoard (p : Position) : Prop :=
  0 ≤ p.i ∧ p.i < 5 ∧ 0 ≤ p.j ∧ p.j < 5

instance (p : Position) : Decidable (OnBoard p) := by
  unfold OnBoard; infer_instance

/-- A sequence of `applyMove` calls, each given by its two arguments.  Returns
the game after the last call and the number of calls that succeeded without a
win.  A call that throws leaves the game as it was. -/
def runCalls (g : Game) : List (String × JsMove) → Game × Nat
  | [] => (g, 0)
  | (player, move) :: rest =>
    match applyMove g player move with
    | .error _ => runCalls g rest
    | .ok (g', .moved _ _) => ((runCalls g' rest).1, (runCalls g' rest).2 + 1)
    | .ok (g', _) => runCalls g' rest

/-- Seven alternating calls from the initial game that bring A's P1 to (2,2)
and B's P1 to (2,3). -/
def captureCalls : List (String × JsMove) :=
  [("A", .obj (some "P1") (some "F")), ("B", .obj (some "P1") (some "B")),
   ("A", .obj (some "P1") (some "F")), ("B", .obj (some "P1") (some "B")),
   ("A", .obj (some "P1") (some "R")), ("B", .obj (some "P1") (some "L")),
   ("A", .obj (some "P1") (some "R"))]

/-- The game reached by `captureCalls`: B to move, with A's P1 next to B's P1. -/
def captureGame : Game :=
  { board := [[none, none, some "B-H2", some "B-H1", none],
              [none, none, none, none, none],
              [none, none, some "A-P1", some "B-P1", none],
              [none, none, none, none, none],
              [none, some "A-H1", some "A-H2", none, none]]
    currentTurn := "B"
    players := { A := none, B := none }
    gameOver := false }

/-- The game after B's P1 has captured A's P1 in `captureGame`. -/
def capturedGame : Game :=
  { board := [[none, none, some "B-H2", some "B-H1", none],
              [none, none, none, none, none],
              [none, none, some "B-P1", none, none],
              [none, none, none, none, none],
              [none, some "A-H1", some "A-H2", none, none]]
    currentTurn := "A"
    players := { A := none, B := none }
    gameOver := false }

instance (cell : Cell) (player : String) : Decidable (HoldsPieceOf cell player) :=
  match cell with
  | none => isFalse (by rintro ⟨s, h, _⟩; cases h)
  | some s =>
    if h : pieceOwner s = some player then isTrue ⟨s, rfl, h⟩
    else isFalse (by rintro ⟨s', hs, h'⟩; cases hs; exact h h')

/-- The board is a 5x5 grid: five rows of five cells. -/
def WellFormed (b : Board) : Prop :=
  b.length = 5 ∧ ∀ row ∈ b, row.length = 5

instance (b : Board) : Decidable (WellFormed b) := by
  unfold WellFormed; infer_instance

/-- The six piece strings placed by `initializeBoard`. -/
def initialPieces : List String :=
  ["A-P1", "A-H1", "A-H2", "B-P1", "B-H1", "B-H2"]

/-- Every non-null cell holds one of the six initial piece strings, and no
string is held by two cells. -/
def PiecesOk (b : Board) : Prop :=
  (∀ i j s, b.get i j = some s → s ∈ initialPieces) ∧
    ∀ i j i' j' s, b.get i j = some s → b.get i' j' = some s → i = i' ∧ j = j'

/-- The objects returned by a sequence of `applyMove` calls, in order (`none`
for a call that throws). -/
def runResults (g : Game) : List (String × JsMove) → List (Option MoveResult)
  | [] => []
  | (player, move) :: rest =>
    match applyMove g player move with
    | .error _ => none :: runResults g rest
    | .ok (g', r) => some r :: runResults g' rest

/-- A connection event or a close event of a channel. -/
inductive SessionEvent where
  | connect (ws : Channel)
  | close (ws : Channel)
deriving DecidableEq, Repr

/-- The game after a sequence of connection and close events, each handled by
`onConnection` and `onClose`. -/
def runSession (g : Game) : List SessionEvent → Game
  | [] => g
  | .connect ws :: rest => runSession (onConnection g ws).1 rest
  | .close ws :: rest => runSession (onClose g ws) rest

/-- Eight alternating calls from the initial game: A moves its P1 with F, R, L,
R and B moves its P1 four times in direction B. -/
def edgeRunCalls : List (String × JsMove) :=
  [("A", .obj (some "P1") (some "F")), ("B", .obj (some "P1") (some "B")),
   ("A", .obj (some "P1") (some "R")), ("B", .obj (some "P1") (some "B")),
   ("A", .obj (some "P1") (some "L")), ("B", .obj (some "P1") (some "B")),
   ("A", .obj (some "P1") (some "R")), ("B", .obj (some "P1") (some "B"))]

/-- The initial game after A's P1 has moved forward from (4,0) to (3,0). -/
def openedGame : Game :=
  { board := [[none, none, some "B-H2", some "B-H1", some "B-P1"],
              [none, none, none, none, none],
              [none, none, none, none, none],
              [some "A-P1", none, none, none, none],
              [none, some "A-H1", some "A-H2", none, none]]
    currentTurn := "B"
    players := { A := none, B := none }
    gameOver := false }

/-- A property of a move of the message format, as a property value. -/
def JsField.ofOption : Option String → JsField
  | none => .undefined
  | some s => .str s

/-- A move of the message format, as a move value. -/
def JsMove.toRaw : JsMove → JsMoveRaw
  | .undefined => .undefined
  | .null => .null
  | .obj character direction => .obj (JsField.ofOption character) (JsField.ofOption direction)

/-- A result of `applyMove`, as a result of `applyMoveRaw`. -/
def MoveResult.toRaw : MoveResult → RawResult
  | .failure message => .failure message
  | .won winner => .won winner
  | .moved character direction => .moved (.str character) (.str direction)

/-- A sent message, as a message of `onMessageRaw`. -/
def OutMsg.toRaw : OutMsg → OutMsgRaw
  | .error message => .error message
  | .init player board currentTurn => .init player board currentTurn
  | .state type board currentTurn move winner =>
    .state type board currentTurn move.toRaw winner

/-- An inbound message of the message format, as a message of `onMessageRaw`. -/
def Inbound.toRaw : Inbound → InboundRaw
  | .notJson => .notJson
  | .json .null => .json .null
  | .json (.value type move) => .json (.value type move.toRaw)

/-! ## Strings -/

theorem singleton_eq_iff (c d : Char) : String.singleton c = String.singleton d ↔ c = d := by
  constructor
  · intro h
    have := congrArg String.data h
    simpa [String.singleton] using this
  · rintro rfl; rfl

theorem pieceName_data (player character : String) :
    (pieceName player character).data = player.data ++ '-' :: character.data := by
  simp [pieceName, String.data_append]

theorem pieceOwner_pieceName_A (character : String) :
    pieceOwner (pieceName "A" character) = some "A" := by
  simp [pieceOwner, pieceName_data]; rfl

theorem pieceOwner_pieceName_B (character : String) :
    pieceOwner (pieceName "B" character) = some "B" := by
  simp [pieceOwner, pieceName_data]; rfl

theorem pieceOwner_pieceName (player character : String)
    (hp : player = "A" ∨ player = "B") :
    pieceOwner (pieceName player character) = some player := by
  rcases hp with rfl | rfl
  · exact pieceOwner_pieceName_A character
  · exact pieceOwner_pieceName_B character

theorem opponent_ne (player : String) (hp : player = "A" ∨ player = "B") :
    opponent player ≠ player := by
  rcases hp with rfl | rfl <;> decide

/-- For the two slots, the own-piece test of line 87 says that the cell holds a
piece whose first letter is the player. -/
theorem ownPiece_iff (cell : Cell) (player : String) (hp : player = "A" ∨ player = "B") :
    ownPiece cell player = true ↔ HoldsPieceOf cell player := by
  cases cell with
  | none => simp [ownPiece, HoldsPieceOf]
  | some s =>
    obtain ⟨l⟩ := s
    cases l with
    | nil =>
      simp [ownPiece, HoldsPieceOf, pieceOwner]
    | cons c rest =>
      have hne : ((⟨c :: rest⟩ : String) != "") = true := by
        simp [bne_iff_ne, String.ext_iff]
      simp only [ownPiece, hne, charAt0Is, HoldsPieceOf, pieceOwner, Bool.true_and,
        Bool.and_eq_true, decide_eq_true_eq, beq_iff_eq, Option.some.injEq, exists_eq_left',
        List.head?_cons, Option.map_some']
      constructor
      · rintro ⟨_, h⟩; exact h.symm
      · intro h
        refine ⟨?_, h.symm⟩
        rcases hp with rfl | rfl
        · have : c = 'A' := (singleton_eq_iff c 'A').1 h
          subst this; decide
        · have : c = 'B' := (singleton_eq_iff c 'B').1 h
          subst this; decide

/-! ## Board reads and writes -/

theorem Board.get_eq (b : Board) (i j : Nat) :
    b.get i j = ((b[i]?.getD [])[j]?).getD none := by
  simp [Board.get, List.getD_eq_getElem?_getD]

/-- A cell that reads as a string lies inside the arrays. -/
theorem Board.inRange_of_get (b : Board) (i j : Nat) (s : String)
    (h : b.get i j = some s) : i < b.length ∧ j < (b.getD i []).length := by
  rw [Board.get_eq] at h
  by_cases hi : i < b.length
  · refine ⟨hi, ?_⟩
    by_contra hj
    rw [List.getD_eq_getElem?_getD] at hj
    rw [List.getElem?_eq_none (Nat.le_of_not_lt hj)] at h
    simp at h
  · rw [List.getElem?_eq_none (Nat.le_of_not_lt hi)] at h
    simp at h

theorem Board.get_set_same (b : Board) (i j : Nat) (v : Cell)
    (hi : i < b.length) (hj : j < (b.getD i []).length) :
    (b.set i j v).get i j = v := by
  simp [Board.get, Board.set, List.getD_eq_getElem?_getD, List.getElem?_set, hi] at hj ⊢
  simp [hj]

theorem Board.get_set_other (b : Board) (i j i' j' : Nat) (v : Cell)
    (h : i' ≠ i ∨ j' ≠ j) :
    (b.set i j v).get i' j' = b.get i' j' := by
  simp only [Board.get, Board.set, List.getD_eq_getElem?_getD, List.getElem?_set]
  by_cases hi : i = i'
  · subst hi
    have hj : j ≠ j' := by
      rcases h with h | h
      · exact absurd rfl h
      · exact fun e => h e.symm
    by_cases hl : i < b.length
    · simp [hl, List.getElem?_set, hj]
    · simp [hl, List.getElem?_eq_none (Nat.le_of_not_lt hl)]
  · simp [hi]

theorem Board.length_set (b : Board) (i j : Nat) (v : Cell) :
    (b.set i j v).length = b.length := by
  simp [Board.set]

theorem sum_map_set {α : Type} (f : α → Nat) (l : List α) (i : Nat) (a : α)
    (h : i < l.length) :
    ((l.set i a).map f).sum + f (l.get ⟨i, h⟩) = (l.map f).sum + f a := by
  induction l generalizing i with
  | nil => simp at h
  | cons x xs ih =>
    cases i with
    | zero => simp; omega
    | succ k =>
      have hk : k < xs.length := by simpa using h
      have := ih k hk
      simp at this ⊢
      omega

theorem countP_set_add {α : Type} (p : α → Bool) (l : List α) (j : Nat) (v : α)
    (h : j < l.length) :
    (l.set j v).countP p + (if p (l.get ⟨j, h⟩) then 1 else 0)
      = l.countP p + (if p v then 1 else 0) := by
  induction l generalizing j with
  | nil => simp at h
  | cons x xs ih =>
    cases j with
    | zero =>
      simp [List.countP_cons]; omega
    | succ k =>
      have hk : k < xs.length := by simpa using h
      have := ih k hk
      simp [List.countP_cons] at this ⊢
      omega

/-- Writing one cell inside the arrays changes the number of non-null cells by
the difference between the new and the old content. -/
theorem nonNullCount_set (b : Board) (i j : Nat) (v : Cell)
    (hi : i < b.length) (hj : j < (b.getD i []).length) :
    nonNullCount (b.set i j v) + (if (b.get i j).isSome then 1 else 0)
      = nonNullCount b + (if v.isSome then 1 else 0) := by
  have hrow : b.getD i [] = List.get b ⟨i, hi⟩ := by
    simp [List.getD_eq_getElem?_getD, List.getElem?_eq_getElem hi]
  have hj' : j < (List.get b ⟨i, hi⟩).length := by rw [← hrow]; exact hj
  have hcell : b.get i j = (List.get b ⟨i, hi⟩).get ⟨j, hj'⟩ := by
    rw [Board.get, hrow, List.getD_eq_getElem?_getD, List.getElem?_eq_getElem hj']
    rfl
  have h1 := sum_map_set (fun row : List Cell => row.countP (fun cell => cell.isSome)) b i
    ((List.get b ⟨i, hi⟩).set j v) hi
  have h2 := countP_set_add (fun cell : Cell => cell.isSome) (List.get b ⟨i, hi⟩) j v hj'
  simp only [nonNullCount, Board.set, hrow, hcell]
  simp only at h1 h2
  omega

/-! ## The piece search -/

theorem scanRow_eq_none (b : Board) (t : String) (i : Nat) (js : List Nat) :
    scanRow b t i js = none ↔ ∀ j ∈ js, b.get i j ≠ some t := by
  induction js with
  | nil => simp [scanRow]
  | cons j js ih =>
    by_cases h : b.get i j = some t
    · simp [scanRow, h]
    · simp [scanRow, h, ih]

theorem scanRow_eq_some (b : Board) (t : String) (i : Nat) (js : List Nat) (p : Position)
    (hs : js.Pairwise (fun x y => x < y)) :
    scanRow b t i js = some p ↔
      ∃ j ∈ js, p = { i := i, j := j } ∧ b.get i j = some t ∧
        ∀ k ∈ js, k < j → b.get i k ≠ some t := by
  induction js with
  | nil => simp [scanRow]
  | cons j js ih =>
    have hs' := (List.pairwise_cons.1 hs)
    by_cases h : b.get i j = some t
    · simp only [scanRow, h, if_true, Option.some.injEq]
      constructor
      · intro hp
        refine ⟨j, List.mem_cons_self _ _, hp.symm, h, ?_⟩
        intro k hk hkj
        rcases List.mem_cons.1 hk with rfl | hk
        · exact absurd hkj (lt_irrefl _)
        · exact absurd (hs'.1 k hk) (not_lt.2 (le_of_lt hkj))
      · rintro ⟨j', hj', hp, hget, hfirst⟩
        rcases List.mem_cons.1 hj' with rfl | hmem
        · exact hp.symm
        · exact absurd h (hfirst j (List.mem_cons_self _ _) (hs'.1 j' hmem))
    · simp only [scanRow, h, if_false, ih hs'.2]
      constructor
      · rintro ⟨j', hj', hp, hget, hfirst⟩
        refine ⟨j', List.mem_cons_of_mem _ hj', hp, hget, ?_⟩
        intro k hk hkj
        rcases List.mem_cons.1 hk with rfl | hk
        · exact h
        · exact hfirst k hk hkj
      · rintro ⟨j', hj', hp, hget, hfirst⟩
        rcases List.mem_cons.1 hj' with rfl | hmem
        · exact absurd hget h
        · exact ⟨j', hmem, hp, hget, fun k hk hkj => hfirst k (List.mem_cons_of_mem _ hk) hkj⟩

theorem scanRows_eq_none (b : Board) (t : String) (is : List Nat) :
    scanRows b t is = none ↔
      ∀ i ∈ is, ∀ j ∈ List.range BOARD_SIZE, b.get i j ≠ some t := by
  induction is with
  | nil => simp [scanRows]
  | cons i is ih =>
    cases hrow : scanRow b t i (List.range BOARD_SIZE) with
    | some p =>
      simp only [scanRows, hrow]
      constructor
      · intro h; cases h
      · intro h
        have := (scanRow_eq_none b t i (List.range BOARD_SIZE)).2 (h i (List.mem_cons_self _ _))
        rw [hrow] at this; cases this
    | none =>
      simp only [scanRows, hrow, ih]
      have hnone := (scanRow_eq_none b t i (List.range BOARD_SIZE)).1 hrow
      constructor
      · intro h i' hi'
        rcases List.mem_cons.1 hi' with rfl | hi'
        · exact hnone
        · exact h i' hi'
      · intro h i' hi'
        exact h i' (List.mem_cons_of_mem _ hi')

theorem scanRows_eq_some (b : Board) (t : String) (is : List Nat) (p : Position)
    (hs : is.Pairwise (fun x y => x < y)) :
    scanRows b t is = some p ↔
      ∃ i ∈ is, ∃ j ∈ List.range BOARD_SIZE, p = { i := i, j := j } ∧ b.get i j = some t ∧
        (∀ k ∈ List.range BOARD_SIZE, k < j → b.get i k ≠ some t) ∧
        ∀ i' ∈ is, i' < i → ∀ k ∈ List.range BOARD_SIZE, b.get i' k ≠ some t := by
  induction is with
  | nil => simp [scanRows]
  | cons i is ih =>
    have hs' := (List.pairwise_cons.1 hs)
    cases hrow : scanRow b t i (List.range BOARD_SIZE) with
    | some q =>
      have hq := (scanRow_eq_some b t i _ q (List.pairwise_lt_range _)).1 hrow
      obtain ⟨j, hj, hqe, hget, hfirst⟩ := hq
      simp only [scanRows, hrow, Option.some.injEq]
      constructor
      · intro hp
        subst hp
        refine ⟨i, List.mem_cons_self _ _, j, hj, hqe, hget, hfirst, ?_⟩
        intro i' hi' hlt
        rcases List.mem_cons.1 hi' with rfl | hi'
        · exact absurd hlt (lt_irrefl _)
        · exact absurd (hs'.1 i' hi') (not_lt.2 (le_of_lt hlt))
      · rintro ⟨i0, hi0, j0, hj0, hp, hget0, hfirst0, hrows0⟩
        rcases List.mem_cons.1 hi0 with rfl | hmem
        · have hq2 : scanRow b t i0 (List.range BOARD_SIZE) = some p :=
            (scanRow_eq_some b t i0 _ p (List.pairwise_lt_range _)).2
              ⟨j0, hj0, hp, hget0, hfirst0⟩
          rw [hrow] at hq2
          exact Option.some.inj hq2
        · exact absurd hget (hrows0 i (List.mem_cons_self _ _) (hs'.1 i0 hmem) j hj)
    | none =>
      have hnone := (scanRow_eq_none b t i (List.range BOARD_SIZE)).1 hrow
      simp only [scanRows, hrow, ih hs'.2]
      constructor
      · rintro ⟨i0, hi0, j0, hj0, hp, hget0, hfirst0, hrows0⟩
        refine ⟨i0, List.mem_cons_of_mem _ hi0, j0, hj0, hp, hget0, hfirst0, ?_⟩
        intro i' hi' hlt
        rcases List.mem_cons.1 hi' with rfl | hi'
        · exact hnone
        · exact hrows0 i' hi' hlt
      · rintro ⟨i0, hi0, j0, hj0, hp, hget0, hfirst0, hrows0⟩
        rcases List.mem_cons.1 hi0 with rfl | hmem
        · exact absurd hget0 (hnone j0 hj0)
        · exact ⟨i0, hmem, j0, hj0, hp, hget0, hfirst0,
            fun i' hi' hlt => hrows0 i' (List.mem_cons_of_mem _ hi') hlt⟩

/-- The search returns the first cell, in row-major order, that holds the
target string. -/
theorem findCharPos_eq_some_iff (b : Board) (t : String) (p : Position) :
    findCharPos b t = some p ↔
      ∃ i j : Nat, p = { i := i, j := j } ∧ FirstCell b t i j := by
  rw [findCharPos, scanRows_eq_some b t _ p (List.pairwise_lt_range _)]
  simp only [List.mem_range, FirstCell]
  constructor
  · rintro ⟨i, hi, j, hj, hp, hget, hfirst, hrows⟩
    refine ⟨i, j, hp, hi, hj, hget, ?_⟩
    intro i' j' hi' hj' hlt
    rcases hlt with hlt | ⟨rfl, hlt⟩
    · exact hrows i' hi' hlt j' hj'
    · exact hfirst j' hj' hlt
  · rintro ⟨i, j, hp, hi, hj, hget, hfirst⟩
    exact ⟨i, hi, j, hj, hp, hget, fun k hk hlt => hfirst i k hi hk (Or.inr ⟨rfl, hlt⟩),
      fun i' hi' hlt k hk => hfirst i' k hi' hk (Or.inl hlt)⟩

/-- The search fails exactly when no cell of the grid holds the target. -/
theorem findCharPos_eq_none_iff (b : Board) (t : String) :
    findCharPos b t = none ↔
      ∀ i j : Nat, i < BOARD_SIZE → j < BOARD_SIZE → b.get i j ≠ some t := by
  rw [findCharPos, scanRows_eq_none]
  simp only [List.mem_range]
  constructor
  · intro h i j hi hj; exact h i hi j hj
  · intro h i hi j hj; exact h i j hi hj

/-- When some cell of the grid holds the target, the search finds a cell. -/
theorem findCharPos_isSome_of_get (b : Board) (t : String) (i j : Nat)
    (hi : i < BOARD_SIZE) (hj : j < BOARD_SIZE) (h : b.get i j = some t) :
    ∃ p, findCharPos b t = some p := by
  cases hf : findCharPos b t with
  | some p => exact ⟨p, rfl⟩
  | none => exact absurd h ((findCharPos_eq_none_iff b t).1 hf i j hi hj)

/-! ## Unfolding `applyMove` -/

theorem truthy_eq_true_iff (v : Option String) :
    truthy v = true ↔ ∃ s, v = some s ∧ s ≠ "" := by
  cases v with
  | none => simp [truthy]
  | some s => simp [truthy, bne_iff_ne]

theorem isValidPosition_iff (p : Position) : isValidPosition p = true ↔ OnBoard p := by
  simp [isValidPosition, OnBoard, BOARD_SIZE, and_assoc]

/-- The validity check passes exactly for the player to move and a move whose
two fields are non-empty strings. -/
theorem isValidMove_eq_true_iff (g : Game) (player : String) (move : JsMove) :
    isValidMove g player move = .ok true ↔
      g.currentTurn = player ∧
        ∃ c d, move = .obj (some c) (some d) ∧ c ≠ "" ∧ d ≠ "" := by
  unfold isValidMove
  by_cases ht : g.currentTurn = player
  · cases move with
    | undefined => simp [ht]
    | null => simp [ht]
    | obj c d =>
      cases c with
      | none => simp [ht, truthy]
      | some c =>
        cases d with
        | none => simp [ht, truthy]
        | some d =>
          by_cases hc : c = ""
          · simp [ht, truthy, hc]
          · by_cases hd : d = ""
            · simp [ht, truthy, hd]
            · have hc' : (c != "") = true := by simpa [bne_iff_ne] using hc
              have hd' : (d != "") = true := by simpa [bne_iff_ne] using hd
              simp only [ht, truthy, hc', hd', ne_eq, not_true_eq_false, if_false, Bool.not_true,
                Bool.or_self, Bool.false_eq_true, true_and]
              exact ⟨fun _ => ⟨c, d, rfl, hc, hd⟩, fun _ => trivial⟩
  · simp [ht]

theorem applyMove_of_ne_turn (g : Game) (player : String) (move : JsMove)
    (h : g.currentTurn ≠ player) :
    applyMove g player move = .ok (g, .failure "Invalid move") := by
  simp [applyMove, isValidMove, h]

theorem applyMove_obj_checked (g : Game) (player c d : String)
    (ht : g.currentTurn = player) (hc : c ≠ "") (hd : d ≠ "") :
    applyMove g player (.obj (some c) (some d)) = .ok (applyChecked g player c d) := by
  have hv : isValidMove g player (.obj (some c) (some d)) = .ok true :=
    (isValidMove_eq_true_iff g player _).2 ⟨ht, c, d, rfl, hc, hd⟩
  simp [applyMove, hv]

theorem applyMove_obj_falsy (g : Game) (player : String) (c d : Option String)
    (h : truthy c = false ∨ truthy d = false) :
    applyMove g player (.obj c d) = .ok (g, .failure "Invalid move") := by
  by_cases ht : g.currentTurn = player
  · have hv : isValidMove g player (.obj c d) = .ok false := by
      rcases h with h | h <;> simp [isValidMove, ht, h]
    simp [applyMove, hv]
  · exact applyMove_of_ne_turn g player _ ht

/-- Every returned object comes from one of three places: the validity check,
the dead branch after it, or the body of `applyMove`. -/
theorem applyMove_ok_cases (g g' : Game) (player : String) (move : JsMove) (r : MoveResult)
    (h : applyMove g player move = .ok (g', r)) :
    (g' = g ∧ r = .failure "Invalid move") ∨
      (g.currentTurn = player ∧ ∃ c d, move = .obj (some c) (some d) ∧ c ≠ "" ∧ d ≠ "" ∧
        applyChecked g player c d = (g', r)) := by
  cases hv : isValidMove g player move with
  | error e => simp [applyMove, hv] at h
  | ok v =>
    cases v with
    | false =>
      simp [applyMove, hv] at h
      exact Or.inl ⟨h.1.symm, h.2.symm⟩
    | true =>
      obtain ⟨ht, c, d, rfl, hc, hd⟩ := (isValidMove_eq_true_iff g player move).1 hv
      rw [applyMove_obj_checked g player c d ht hc hd] at h
      exact Or.inr ⟨ht, c, d, rfl, hc, hd, Except.ok.inj h⟩

theorem applyChecked_notFound (g : Game) (player c d : String)
    (h : findCharPos g.board (pieceName player c) = none) :
    applyChecked g player c d = (g, .failure "Character not found on board") := by
  simp [applyChecked, h]

theorem applyChecked_offBoard (g : Game) (player c d : String) (src : Position)
    (h : findCharPos g.board (pieceName player c) = some src)
    (hv : isValidPosition (calculateNewPosition src d c) = false) :
    applyChecked g player c d = (g, .failure "Invalid move direction") := by
  simp [applyChecked, h, hv]

theorem applyChecked_own (g : Game) (player c d : String) (src : Position)
    (h : findCharPos g.board (pieceName player c) = some src)
    (hv : isValidPosition (calculateNewPosition src d c) = true)
    (ho : ownPiece (g.board.get (calculateNewPosition src d c).i.toNat
      (calculateNewPosition src d c).j.toNat) player = true) :
    applyChecked g player c d =
      (g, .failure "Cannot move to a position occupied by your own piece") := by
  simp [applyChecked, h, hv, ho]

theorem applyChecked_applied (g : Game) (player c d : String) (src : Position)
    (h : findCharPos g.board (pieceName player c) = some src)
    (hv : isValidPosition (calculateNewPosition src d c) = true)
    (ho : ownPiece (g.board.get (calculateNewPosition src d c).i.toNat
      (calculateNewPosition src d c).j.toNat) player = false) :
    applyChecked g player c d =
      if checkWinCondition (calculateNewPosition src d c) then
        ({ g with
            board := (g.board.set src.i.toNat src.j.toNat none).set
              (calculateNewPosition src d c).i.toNat (calculateNewPosition src d c).j.toNat
              (some (pieceName player c))
            gameOver := true }, .won player)
      else
        ({ g with
            board := (g.board.set src.i.toNat src.j.toNat none).set
              (calculateNewPosition src d c).i.toNat (calculateNewPosition src d c).j.toNat
              (some (pieceName player c))
            currentTurn := if player = "A" then "B" else "A" }, .moved c d) := by
  simp [applyChecked, h, hv, ho]

/-- A successful result of the body of `applyMove` passed all three checks of
the body. -/
theorem applyChecked_success (g g' : Game) (player c d : String) (r : MoveResult)
    (h : applyChecked g player c d = (g', r)) (hs : r.success = true) :
    ∃ src, findCharPos g.board (pieceName player c) = some src ∧
      isValidPosition (calculateNewPosition src d c) = true ∧
      ownPiece (g.board.get (calculateNewPosition src d c).i.toNat
        (calculateNewPosition src d c).j.toNat) player = false := by
  cases hf : findCharPos g.board (pieceName player c) with
  | none =>
    rw [applyChecked_notFound g player c d hf] at h
    cases h; cases hs
  | some src =>
    refine ⟨src, rfl, ?_⟩
    cases hv : isValidPosition (calculateNewPosition src d c) with
    | false =>
      rw [applyChecked_offBoard g player c d src hf hv] at h
      cases h; cases hs
    | true =>
      refine ⟨rfl, ?_⟩
      cases ho : ownPiece (g.board.get (calculateNewPosition src d c).i.toNat
          (calculateNewPosition src d c).j.toNat) player with
      | false => rfl
      | true =>
        rw [applyChecked_own g player c d src hf hv ho] at h
        cases h; cases hs

/-- A failing result of the body of `applyMove` leaves the game as it was. -/
theorem applyChecked_failure (g g' : Game) (player c d : String) (r : MoveResult)
    (h : applyChecked g player c d = (g', r)) (hs : r.success = false) : g' = g := by
  cases hf : findCharPos g.board (pieceName player c) with
  | none =>
    rw [applyChecked_notFound g player c d hf] at h
    cases h; rfl
  | some src =>
    cases hv : isValidPosition (calculateNewPosition src d c) with
    | false =>
      rw [applyChecked_offBoard g player c d src hf hv] at h
      cases h; rfl
    | true =>
      cases ho : ownPiece (g.board.get (calculateNewPosition src d c).i.toNat
          (calculateNewPosition src d c).j.toNat) player with
      | true =>
        rw [applyChecked_own g player c d src hf hv ho] at h
        cases h; rfl
      | false =>
        rw [applyChecked_applied g player c d src hf hv ho] at h
        split at h <;> (cases h; cases hs)

/-- The turn after a call: flipped by a successful move that does not win, kept
by every other call. -/
theorem applyMove_currentTurn (g g' : Game) (player : String) (move : JsMove)
    (r : MoveResult) (h : applyMove g player move = .ok (g', r)) :
    g'.currentTurn =
      if r.success = true ∧ r.win = false then opponent g.currentTurn else g.currentTurn := by
  rcases applyMove_ok_cases g g' player move r h with ⟨hg, hr⟩ | ⟨ht, c, d, _, _, _, hch⟩
  · subst hg; subst hr; simp [MoveResult.success]
  · cases hsucc : r.success with
    | false =>
      have := applyChecked_failure g g' player c d r hch hsucc
      subst this; simp
    | true =>
      obtain ⟨src, hfind, hv, ho⟩ := applyChecked_success g g' player c d r hch hsucc
      rw [applyChecked_applied g player c d src hfind hv ho] at hch
      split at hch
      · cases hch; simp [MoveResult.win]
      · cases hch; simp [MoveResult.win, opponent, ht]

theorem opponent_mem (t : String) : opponent t = "A" ∨ opponent t = "B" := by
  unfold opponent; split
  · exact Or.inr rfl
  · exact Or.inl rfl

theorem opponent_opponent (t : String) (ht : t = "A" ∨ t = "B") :
    opponent (opponent t) = t := by
  rcases ht with rfl | rfl <;> decide

theorem runCalls_cons (g : Game) (player : String) (move : JsMove)
    (rest : List (String × JsMove)) :
    runCalls g ((player, move) :: rest) =
      match applyMove g player move with
      | .error _ => runCalls g rest
      | .ok (g', r) =>
        if r.success = true ∧ r.win = false then
          ((runCalls g' rest).1, (runCalls g' rest).2 + 1)
        else runCalls g' rest := by
  rw [runCalls]
  cases h : applyMove g player move with
  | error e => rfl
  | ok v =>
    obtain ⟨g', r⟩ := v
    cases r <;> simp [MoveResult.success, MoveResult.win]

/-- Along any sequence of calls the turn is the starting slot after an even
number of successful non-winning calls and the other slot after an odd number. -/
theorem runCalls_currentTurn (calls : List (String × JsMove)) (g : Game)
    (hg : g.currentTurn = "A" ∨ g.currentTurn = "B") :
    (runCalls g calls).1.currentTurn =
      if (runCalls g calls).2 % 2 = 0 then g.currentTurn else opponent g.currentTurn := by
  induction calls generalizing g with
  | nil => simp [runCalls]
  | cons call rest ih =>
    obtain ⟨player, move⟩ := call
    rw [runCalls_cons]
    cases h : applyMove g player move with
    | error e => exact ih g hg
    | ok v =>
      obtain ⟨g', r⟩ := v
      have hturn := applyMove_currentTurn g g' player move r h
      by_cases hr : r.success = true ∧ r.win = false
      · rw [if_pos hr] at hturn
        have hg' : g'.currentTurn = "A" ∨ g'.currentTurn = "B" := by
          rw [hturn]; exact opponent_mem _
        have := ih g' hg'
        simp only [hr, and_self, if_true]
        rw [this, hturn, opponent_opponent _ hg]
        rcases Nat.mod_two_eq_zero_or_one (runCalls g' rest).2 with h0 | h1
        · have h2 : ((runCalls g' rest).2 + 1) % 2 = 1 := by omega
          simp [h0, h2]
        · have h2 : ((runCalls g' rest).2 + 1) % 2 = 0 := by omega
          simp [h1, h2]
      · rw [if_neg hr] at hturn
        have hg' : g'.currentTurn = "A" ∨ g'.currentTurn = "B" := by
          rw [hturn]; exact hg
        have := ih g' hg'
        simp only [hr, if_false]
        rw [this, hturn]

/-! ## The grid shape and the pieces on it -/

theorem WellFormed.inRange (b : Board) (hw : WellFormed b) (i j : Nat)
    (hi : i < 5) (hj : j < 5) : i < b.length ∧ j < (b.getD i []).length := by
  have hl : i < b.length := by rw [hw.1]; exact hi
  refine ⟨hl, ?_⟩
  have hrow : b.getD i [] = b[i] := by
    simp [List.getD_eq_getElem?_getD, List.getElem?_eq_getElem hl]
  rw [hrow, hw.2 _ (List.getElem_mem _)]
  exact hj

theorem WellFormed.bound_of_get (b : Board) (hw : WellFormed b) (i j : Nat) (s : String)
    (h : b.get i j = some s) : i < 5 ∧ j < 5 := by
  obtain ⟨hi, hj⟩ := Board.inRange_of_get b i j s h
  have hrow : b.getD i [] = b[i] := by
    simp [List.getD_eq_getElem?_getD, List.getElem?_eq_getElem hi]
  rw [hrow, hw.2 _ (List.getElem_mem _)] at hj
  rw [hw.1] at hi
  exact ⟨hi, hj⟩

theorem WellFormed.set (b : Board) (hw : WellFormed b) (i j : Nat) (v : Cell) :
    WellFormed (b.set i j v) := by
  refine ⟨by rw [Board.length_set]; exact hw.1, ?_⟩
  intro row hrow
  by_cases hi : i < b.length
  · rcases List.mem_or_eq_of_mem_set hrow with h | h
    · exact hw.2 row h
    · have hr : b.getD i [] = b[i] := by
        simp [List.getD_eq_getElem?_getD, List.getElem?_eq_getElem hi]
      rw [h, List.length_set, hr]
      exact hw.2 _ (List.getElem_mem _)
  · rw [Board.set, List.set_eq_of_length_le (Nat.le_of_not_lt hi)] at hrow
    exact hw.2 row hrow

/-- Reading a 5x5 board after a write inside the grid. -/
theorem Board.get_set (b : Board) (hw : WellFormed b) (i j x y : Nat) (v : Cell)
    (hi : i < 5) (hj : j < 5) :
    (b.set i j v).get x y = if x = i ∧ y = j then v else b.get x y := by
  by_cases h : x = i ∧ y = j
  · obtain ⟨rfl, rfl⟩ := h
    obtain ⟨h1, h2⟩ := hw.inRange b x y hi hj
    simp [Board.get_set_same b x y v h1 h2]
  · rw [if_neg h]
    apply Board.get_set_other
    by_contra hcon
    push_neg at hcon
    exact h hcon

theorem wellFormed_initializeBoard : WellFormed initializeBoard := by decide

theorem piecesOk_initializeBoard : PiecesOk initializeBoard := by
  have hmem : ∀ i j : Fin 5, ∀ s, initializeBoard.get i j = some s → s ∈ initialPieces := by
    decide
  have huniq : ∀ i j i' j' : Fin 5, initializeBoard.get i j ≠ none →
      initializeBoard.get i j = initializeBoard.get i' j' → i = i' ∧ j = j' := by decide
  constructor
  · intro i j s h
    obtain ⟨hi, hj⟩ := wellFormed_initializeBoard.bound_of_get _ i j s h
    exact hmem ⟨i, hi⟩ ⟨j, hj⟩ s h
  · intro i j i' j' s h h'
    obtain ⟨hi, hj⟩ := wellFormed_initializeBoard.bound_of_get _ i j s h
    obtain ⟨hi', hj'⟩ := wellFormed_initializeBoard.bound_of_get _ i' j' s h'
    have := huniq ⟨i, hi⟩ ⟨j, hj⟩ ⟨i', hi'⟩ ⟨j', hj'⟩ (by simp [h]) (by simp [h, h'])
    simpa [Fin.ext_iff] using this

/-- A successful call: the move named a piece found at the first matching cell
`(i, j)`, the destination is on the board and fails the own-piece test, and the
board after the call is the old board with the source cleared and the piece
written at the destination. -/
theorem applyMove_success_shape (g g' : Game) (player : String) (move : JsMove)
    (r : MoveResult) (h : applyMove g player move = .ok (g', r))
    (hs : r.success = true) :
    ∃ (c d : String) (i j : Nat), move = .obj (some c) (some d) ∧ c ≠ "" ∧ d ≠ "" ∧
      g.currentTurn = player ∧
      FirstCell g.board (pieceName player c) i j ∧
      OnBoard (calculateNewPosition { i := i, j := j } d c) ∧
      ownPiece (g.board.get (calculateNewPosition { i := i, j := j } d c).i.toNat
        (calculateNewPosition { i := i, j := j } d c).j.toNat) player = false ∧
      g'.board = (g.board.set i j none).set
        (calculateNewPosition { i := i, j := j } d c).i.toNat
        (calculateNewPosition { i := i, j := j } d c).j.toNat (some (pieceName player c)) ∧
      g'.players = g.players ∧
      (checkWinCondition (calculateNewPosition { i := i, j := j } d c) = true →
        r = .won player ∧ g'.gameOver = true ∧ g'.currentTurn = g.currentTurn) ∧
      (checkWinCondition (calculateNewPosition { i := i, j := j } d c) = false →
        r = .moved c d ∧ g'.gameOver = g.gameOver ∧
          g'.currentTurn = opponent g.currentTurn) := by
  rcases applyMove_ok_cases g g' player move r h with ⟨_, hr⟩ | ⟨ht, c, d, hm, hc, hd, hch⟩
  · subst hr; cases hs
  · obtain ⟨src, hfind, hv, ho⟩ := applyChecked_success g g' player c d r hch hs
    obtain ⟨i, j, rfl, hfirst⟩ := (findCharPos_eq_some_iff _ _ _).1 hfind
    rw [applyChecked_applied g player c d _ hfind hv ho] at hch
    refine ⟨c, d, i, j, hm, hc, hd, ht, hfirst, (isValidPosition_iff _).1 hv, ho, ?_⟩
    cases hw : checkWinCondition (calculateNewPosition { i := (i : Int), j := (j : Int) } d c) with
    | true =>
      rw [hw] at hch
      simp only [if_true, Int.toNat_ofNat] at hch
      cases hch
      simp
    | false =>
      rw [hw] at hch
      simp only [Bool.false_eq_true, if_false, Int.toNat_ofNat] at hch
      cases hch
      simp [opponent, ht]

theorem OnBoard.toNat_lt (p : Position) (h : OnBoard p) : p.i.toNat < 5 ∧ p.j.toNat < 5 := by
  obtain ⟨h1, h2, h3, h4⟩ := h
  constructor <;> omega

/-- A call of `applyMove` keeps the board a 5x5 grid. -/
theorem applyMove_wellFormed (g g' : Game) (player : String) (move : JsMove)
    (r : MoveResult) (h : applyMove g player move = .ok (g', r))
    (hw : WellFormed g.board) : WellFormed g'.board := by
  cases hs : r.success with
  | false =>
    rcases applyMove_ok_cases g g' player move r h with ⟨hg, _⟩ | ⟨_, c, d, _, _, _, hc⟩
    · rw [hg]; exact hw
    · rw [applyChecked_failure g g' player c d r hc hs]; exact hw
  | true =>
    obtain ⟨c, d, i, j, _, _, _, _, _, _, _, hb, _⟩ :=
      applyMove_success_shape g g' player move r h hs
    rw [hb]
    exact (hw.set _ _ _ _).set _ _ _ _

/-- A call of `applyMove` on a 5x5 board keeps the pieces among the six initial
strings and keeps them distinct. -/
theorem applyMove_piecesOk (g g' : Game) (player : String) (move : JsMove)
    (r : MoveResult) (h : applyMove g player move = .ok (g', r))
    (hw : WellFormed g.board) (hp : PiecesOk g.board) : PiecesOk g'.board := by
  cases hs : r.success with
  | false =>
    rcases applyMove_ok_cases g g' player move r h with ⟨hg, _⟩ | ⟨_, c, d, _, _, _, hc⟩
    · rw [hg]; exact hp
    · rw [applyChecked_failure g g' player c d r hc hs]; exact hp
  | true =>
    obtain ⟨c, d, i, j, _, _, _, _, hfirst, hon, _, hb, _⟩ :=
      applyMove_success_shape g g' player move r h hs
    obtain ⟨hdi, hdj⟩ := OnBoard.toNat_lt _ hon
    generalize (calculateNewPosition { i := (i : Int), j := (j : Int) } d c).i.toNat = di at *
    generalize (calculateNewPosition { i := (i : Int), j := (j : Int) } d c).j.toNat = dj at *
    have hi : i < 5 := hfirst.1
    have hj : j < 5 := hfirst.2.1
    have hsrc : g.board.get i j = some (pieceName player c) := hfirst.2.2.1
    have hget : ∀ x y, g'.board.get x y =
        if x = di ∧ y = dj then some (pieceName player c)
        else if x = i ∧ y = j then none else g.board.get x y := by
      intro x y
      rw [hb, Board.get_set _ (hw.set _ _ _ _) di dj x y _ hdi hdj,
        Board.get_set _ hw i j x y _ hi hj]
    -- a cell of the new board that holds the moved piece is the destination
    have hname : ∀ x y, g'.board.get x y = some (pieceName player c) → x = di ∧ y = dj := by
      intro x y hxy
      rw [hget] at hxy
      by_cases h1 : x = di ∧ y = dj
      · exact h1
      · rw [if_neg h1] at hxy
        by_cases h2 : x = i ∧ y = j
        · rw [if_pos h2] at hxy; cases hxy
        · rw [if_neg h2] at hxy
          exact absurd (hp.2 x y i j _ hxy hsrc) h2
    constructor
    · intro x y s hxy
      have hxy' := hxy
      rw [hget] at hxy'
      by_cases h1 : x = di ∧ y = dj
      · rw [if_pos h1] at hxy'
        cases hxy'
        exact hp.1 i j _ hsrc
      · rw [if_neg h1] at hxy'
        by_cases h2 : x = i ∧ y = j
        · rw [if_pos h2] at hxy'; cases hxy'
        · rw [if_neg h2] at hxy'
          exact hp.1 x y s hxy'
    · intro x y x' y' s hxy hxy'
      by_cases hsn : s = pieceName player c
      · subst hsn
        obtain ⟨rfl, rfl⟩ := hname x y hxy
        obtain ⟨rfl, rfl⟩ := hname x' y' hxy'
        exact ⟨rfl, rfl⟩
      · have old : ∀ u v, g'.board.get u v = some s → g.board.get u v = some s := by
          intro u v huv
          rw [hget] at huv
          by_cases h1 : u = di ∧ v = dj
          · rw [if_pos h1] at huv
            exact absurd (Option.some.inj huv).symm hsn
          · rw [if_neg h1] at huv
            by_cases h2 : u = i ∧ v = j
            · rw [if_pos h2] at huv; cases huv
            · rw [if_neg h2] at huv; exact huv
        exact hp.2 x y x' y' s (old x y hxy) (old x' y' hxy')

/-- Induction over a sequence of `applyMove` calls: a property of the game that
every returning call preserves holds after the whole sequence. -/
theorem runCalls_induction (P : Game → Prop)
    (hstep : ∀ (g g' : Game) (player : String) (move : JsMove) (r : MoveResult),
      P g → applyMove g player move = .ok (g', r) → P g')
    (calls : List (String × JsMove)) (g : Game) (hg : P g) : P (runCalls g calls).1 := by
  induction calls generalizing g with
  | nil => simpa [runCalls] using hg
  | cons call rest ih =>
    obtain ⟨player, move⟩ := call
    rw [runCalls_cons]
    cases h : applyMove g player move with
    | error e => exact ih g hg
    | ok v =>
      obtain ⟨g', r⟩ := v
      have hg' := hstep g g' player move r hg h
      by_cases hr : r.success = true ∧ r.win = false
      · simp only [hr, and_self, if_true]
        exact ih g' hg'
      · simp only [hr, if_false]
        exact ih g' hg'

/-- A returned failure leaves the game as it was. -/
theorem applyMove_failure_same (g g' : Game) (player : String) (move : JsMove)
    (r : MoveResult) (h : applyMove g player move = .ok (g', r))
    (hf : r.success = false) : g' = g := by
  rcases applyMove_ok_cases g g' player move r h with ⟨hg, _⟩ | ⟨_, c, d, _, _, _, hc⟩
  · exact hg
  · exact applyChecked_failure g g' player c d r hc hf

/-! ## Slots and handlers -/

theorem onClose_players_A (g : Game) (ws : Channel) :
    (onClose g ws).players.A = if g.players.A = some ws then none else g.players.A := by
  unfold onClose
  by_cases hA : g.players.A = some ws <;> by_cases hB : g.players.B = some ws <;>
    simp [hA, hB]

theorem onClose_players_B (g : Game) (ws : Channel) :
    (onClose g ws).players.B = if g.players.B = some ws then none else g.players.B := by
  unfold onClose
  by_cases hA : g.players.A = some ws <;> by_cases hB : g.players.B = some ws <;>
    simp [hA, hB]

/-- Close events never fill a slot: an empty slot A stays empty. -/
theorem foldl_onClose_A (closes : List Channel) (g : Game) (h : g.players.A = none) :
    (closes.foldl onClose g).players.A = none := by
  induction closes generalizing g with
  | nil => exact h
  | cons ws rest ih =>
    apply ih
    rw [onClose_players_A, h]
    simp

/-- Close events never fill a slot: an empty slot B stays empty. -/
theorem foldl_onClose_B (closes : List Channel) (g : Game) (h : g.players.B = none) :
    (closes.foldl onClose g).players.B = none := by
  induction closes generalizing g with
  | nil => exact h
  | cons ws rest ih =>
    apply ih
    rw [onClose_players_B, h]
    simp

/-- A call of `applyMove` does not touch the player slots. -/
theorem applyMove_players (g g' : Game) (player : String) (move : JsMove) (r : MoveResult)
    (h : applyMove g player move = .ok (g', r)) : g'.players = g.players := by
  cases hs : r.success with
  | false =>
    rcases applyMove_ok_cases g g' player move r h with ⟨hg, _⟩ | ⟨_, c, d, _, _, _, hc⟩
    · rw [hg]
    · rw [applyChecked_failure g g' player c d r hc hs]
  | true =>
    obtain ⟨_, _, _, _, _, _, _, _, _, _, _, _, hp, _⟩ :=
      applyMove_success_shape g g' player move r h hs
    exact hp

/-- A move value that is neither `undefined` nor `null` never makes
`applyMove` throw. -/
theorem applyMove_obj_ok (g : Game) (player : String) (c d : Option String) :
    ∃ g' r, applyMove g player (.obj c d) = .ok (g', r) := by
  by_cases ht : truthy c = false ∨ truthy d = false
  · exact ⟨g, _, applyMove_obj_falsy g player c d ht⟩
  · push_neg at ht
    obtain ⟨hc, hd⟩ := ht
    obtain ⟨c', rfl, hc'⟩ := (truthy_eq_true_iff c).1 (by simpa using hc)
    obtain ⟨d', rfl, hd'⟩ := (truthy_eq_true_iff d).1 (by simpa using hd)
    by_cases hturn : g.currentTurn = player
    · exact ⟨_, _, applyMove_obj_checked g player c' d' hturn hc' hd'⟩
    · exact ⟨g, _, applyMove_of_ne_turn g player _ hturn⟩

/-! ## Moves of any JSON value -/

theorem calculateNewPositionRaw_str (position : Position) (d c : String) :
    calculateNewPositionRaw position (.str d) (.str c) = calculateNewPosition position d c := by
  simp [calculateNewPositionRaw, calculateNewPosition]

theorem applyCheckedRaw_str (g : Game) (player c d : String) :
    applyCheckedRaw g player (.str c) (.str d) c =
      ((applyChecked g player c d).1, (applyChecked g player c d).2.toRaw) := by
  unfold applyCheckedRaw applyChecked
  simp only [calculateNewPositionRaw_str]
  cases findCharPos g.board (pieceName player c) with
  | none => rfl
  | some src =>
    simp only
    split
    · rfl
    · split
      · rfl
      · split <;> rfl

theorem isValidMoveRaw_toRaw (g : Game) (player : String) (move : JsMove) :
    isValidMoveRaw g player move.toRaw = isValidMove g player move := by
  cases move with
  | undefined => rfl
  | null => rfl
  | obj c d =>
    cases c <;> cases d <;> rfl

/-- On a move of the message format `applyMoveRaw` is `applyMove`. -/
theorem applyMoveRaw_toRaw (g : Game) (player : String) (move : JsMove) :
    applyMoveRaw g player move.toRaw =
      (applyMove g player move).map (fun x => (x.1, x.2.toRaw)) := by
  unfold applyMoveRaw applyMove
  rw [isValidMoveRaw_toRaw]
  cases hv : isValidMove g player move with
  | error e => rfl
  | ok v =>
    cases v with
    | false => rfl
    | true =>
      obtain ⟨_, c, d, rfl, _, _⟩ := (isValidMove_eq_true_iff g player move).1 hv
      simp only [JsMove.toRaw, JsField.ofOption, JsField.toStr, applyCheckedRaw_str]
      rfl

/-- `applyMoveRaw` returns an object whenever the sender is not the slot to
move, or the move has properties and either one of them is falsy or
`character` can be converted to a string. -/
theorem applyMoveRaw_ok (g : Game) (player : String) (move : JsMoveRaw)
    (h : player ≠ g.currentTurn ∨
      ∃ c d, move = .obj c d ∧ (c.toStr ≠ none ∨ c.truthy = false ∨ d.truthy = false)) :
    ∃ g' r, applyMoveRaw g player move = .ok (g', r) := by
  by_cases ht : g.currentTurn = player
  · rcases h with h | ⟨c, d, rfl, h⟩
    · exact absurd ht.symm h
    · by_cases hb : (!c.truthy || !d.truthy) = true
      · exact ⟨g, .failure "Invalid move", by simp [applyMoveRaw, isValidMoveRaw, ht, hb]⟩
      · cases htx : c.toStr with
        | none =>
          rcases h with h | h | h
          · exact absurd htx h
          · simp [h] at hb
          · simp [h] at hb
        | some text =>
          exact ⟨_, _, by simp [applyMoveRaw, isValidMoveRaw, ht, hb, htx]; rfl⟩
  · exact ⟨g, .failure "Invalid move", by simp [applyMoveRaw, isValidMoveRaw, ht]⟩

/-- A `character` that cannot be converted to a string makes `applyMoveRaw`
throw when the sender is to move and both properties are truthy. -/
theorem applyMoveRaw_unconvertible (g : Game) (d : JsField) (hd : d.truthy = true) :
    applyMoveRaw g g.currentTurn (.obj (.other true none) d) = .error .typeError := by
  have hv : isValidMoveRaw g g.currentTurn (.obj (.other true none) d) = .ok true := by
    have h1 : (JsField.other true none).truthy = true := rfl
    simp [isValidMoveRaw, h1, hd]
  simp [applyMoveRaw, hv, JsField.toStr]

/-- On a message of the message format `onMessageRaw` is `onMessage`. -/
theorem onMessageRaw_toRaw (g : Game) (clients : List Client) (ws : Channel)
    (player : String) (message : Inbound) :
    onMessageRaw g clients ws player message.toRaw =
      (onMessage g clients ws player message).map
        (fun x => (x.1, x.2.map (fun sent => (sent.1, sent.2.toRaw)))) := by
  cases message with
  | notJson => rfl
  | json data =>
    cases data with
    | null => rfl
    | value type move =>
      by_cases ht : type = some "move"
      · simp only [Inbound.toRaw, onMessageRaw, onMessage, ht, if_true,
          applyMoveRaw_toRaw]
        cases applyMove g player move with
        | error e => cases e; rfl
        | ok v =>
          obtain ⟨g', r⟩ := v
          cases r <;>
            simp [Except.map, MoveResult.toRaw, OutMsg.toRaw, RawResult.win,
              MoveResult.win, List.map_map, Function.comp_def]
      · simp [Inbound.toRaw, onMessageRaw, onMessage, ht, Except.map]

/-! ## The claims -/

/-- C1, evaluated on the code: from the initial game, A moves H2 to the right,
lands on row 4 and wins, so `gameOver` is `true`; the next call
`applyMove('A', {character: 'P1', direction: 'F'})` is nevertheless accepted: it
succeeds, moves A's P1 from (4,0) to (3,0) and passes the turn to B.  The flag
`gameOver` is written by `applyMove` and read nowhere. -/
theorem applyMove_accepted_after_gameOver :
    ∃ g g' : Game,
      applyMove Game.new "A" (.obj (some "H2") (some "R")) = .ok (g, .won "A") ∧
      g.gameOver = true ∧
      applyMove g "A" (.obj (some "P1") (some "F")) = .ok (g', .moved "P1" "F") ∧
      (MoveResult.moved "P1" "F").success = true ∧
      g.board.get 4 0 = some "A-P1" ∧ g.board.get 3 0 = none ∧
      g'.board.get 4 0 = none ∧ g'.board.get 3 0 = some "A-P1" ∧
      g.currentTurn = "A" ∧ g'.currentTurn = "B" ∧ g'.gameOver = true := by
  refine ⟨{ board := [[none, none, some "B-H2", some "B-H1", some "B-P1"],
                      [none, none, none, none, none],
                      [none, none, none, none, none],
                      [none, none, none, none, none],
                      [some "A-P1", some "A-H1", none, some "A-H2", none]]
            currentTurn := "A"
            players := { A := none, B := none }
            gameOver := true },
          { board := [[none, none, some "B-H2", some "B-H1", some "B-P1"],
                      [none, none, none, none, none],
                      [none, none, none, none, none],
                      [some "A-P1", none, none, none, none],
                      [none, some "A-H1", none, some "A-H2", none]]
            currentTurn := "B"
            players := { A := none, B := none }
            gameOver := true }, ?_⟩
  decide

/-- C2: whenever `player` differs from `currentTurn`, `applyMove(player, move)`
returns `{ success: false, message: 'Invalid move' }` and leaves the game as it
was, whatever `move` is (`undefined` and `null` included) and whatever the
board holds: the turn test comes before every other test. -/
theorem applyMove_out_of_turn (g : Game) (player : String) (move : JsMove)
    (h : player ≠ g.currentTurn) :
    applyMove g player move = .ok (g, .failure "Invalid move") ∧
      (MoveResult.failure "Invalid move").success = false :=
  ⟨applyMove_of_ne_turn g player move (fun e => h e.symm), rfl⟩

/-- Witness for C2: in the initial game (A to move) B submits the otherwise
legal move of its P1 one row down and is refused. -/
theorem applyMove_out_of_turn_witness :
    "B" ≠ Game.new.currentTurn ∧
      applyMove Game.new "B" (.obj (some "P1") (some "B")) =
        .ok (Game.new, .failure "Invalid move") ∧
      (MoveResult.failure "Invalid move").success = false :=
  ⟨by decide, applyMove_out_of_turn Game.new "B" (.obj (some "P1") (some "B")) (by decide)⟩

/-- C3: when `applyMove(player, move)` returns an object with `success: false`,
the game after the call equals the game before it: board, `currentTurn`,
`gameOver` and player slots are all unchanged. -/
theorem applyMove_failure_unchanged (g g' : Game) (player : String) (move : JsMove)
    (r : MoveResult) (h : applyMove g player move = .ok (g', r))
    (hf : r.success = false) :
    g' = g ∧ g'.board = g.board ∧ g'.currentTurn = g.currentTurn ∧
      g'.gameOver = g.gameOver := by
  have hg : g' = g := by
    rcases applyMove_ok_cases g g' player move r h with ⟨hg, _⟩ | ⟨_, c, d, _, _, _, hc⟩
    · exact hg
    · exact applyChecked_failure g g' player c d r hc hf
  subst hg
  exact ⟨rfl, rfl, rfl, rfl⟩

/-- Witness for C3: in the initial game A submits a move with `character`
present and `direction` missing; it is rejected with `'Invalid move'` and the
game is unchanged. -/
theorem applyMove_failure_unchanged_witness :
    applyMove Game.new "A" (.obj (some "P1") none) =
        .ok (Game.new, .failure "Invalid move") ∧
      (MoveResult.failure "Invalid move").success = false ∧
      (Game.new = Game.new ∧ Game.new.board = Game.new.board ∧
        Game.new.currentTurn = Game.new.currentTurn ∧
        Game.new.gameOver = Game.new.gameOver) :=
  ⟨by decide, rfl,
    applyMove_failure_unchanged Game.new Game.new "A" (.obj (some "P1") none)
      (.failure "Invalid move") (by decide) rfl⟩

/-- C10: for every position `(i, j)` and every kind, `calculateNewPosition`
adds the deltas of the rule table: L (0,-1), R (0,+1), FL (-1,-1), FR (-1,+1),
BL (+1,-1), BR (+1,+1) for every kind; F (-1,0) and B (+1,0) when the kind is
`'P1'` and (0,0) for any other kind. -/
theorem calculateNewPosition_table (i j : Int) (kind : String) :
    calculateNewPosition { i := i, j := j } "L" kind = { i := i, j := j - 1 } ∧
    calculateNewPosition { i := i, j := j } "R" kind = { i := i, j := j + 1 } ∧
    calculateNewPosition { i := i, j := j } "FL" kind = { i := i - 1, j := j - 1 } ∧
    calculateNewPosition { i := i, j := j } "FR" kind = { i := i - 1, j := j + 1 } ∧
    calculateNewPosition { i := i, j := j } "BL" kind = { i := i + 1, j := j - 1 } ∧
    calculateNewPosition { i := i, j := j } "BR" kind = { i := i + 1, j := j + 1 } ∧
    calculateNewPosition { i := i, j := j } "F" kind =
      (if kind = "P1" then { i := i - 1, j := j } else { i := i, j := j }) ∧
    calculateNewPosition { i := i, j := j } "B" kind =
      (if kind = "P1" then { i := i + 1, j := j } else { i := i, j := j }) := by
  refine ⟨?_, ?_, ?_, ?_, ?_, ?_, ?_, ?_⟩
  · simp [calculateNewPosition]
  · simp [calculateNewPosition]
  · simp [calculateNewPosition]
  · simp [calculateNewPosition]
  · simp [calculateNewPosition]
  · simp [calculateNewPosition]
  · by_cases hk : kind = "P1" <;> simp [calculateNewPosition, hk]
  · by_cases hk : kind = "P1" <;> simp [calculateNewPosition, hk]

/-- C4: for a player in {A, B}, `applyMove(player, move)` succeeds if and only
if all five checks pass: the player is `currentTurn`; `move.character` and
`move.direction` are present and non-empty; some cell of the grid holds the
string `player-character`, `(i, j)` being the first such cell in row-major
order; the position computed by `calculateNewPosition` from `(i, j)` has both
coordinates in `[0, 5)`; and the cell at that position does not hold a piece
whose owner is the player.  The checks are made in this order, the first one
that fails decides the returned message, and the game is left as it was. -/
theorem applyMove_succeeds_iff (g : Game) (player : String) (move : JsMove)
    (hp : player = "A" ∨ player = "B") :
    ((∃ g' r, applyMove g player move = .ok (g', r) ∧ r.success = true) ↔
      (player = g.currentTurn ∧
        ∃ c d, move = .obj (some c) (some d) ∧ c ≠ "" ∧ d ≠ "" ∧
          ∃ i j : Nat, FirstCell g.board (pieceName player c) i j ∧
            OnBoard (calculateNewPosition { i := i, j := j } d c) ∧
            ¬ HoldsPieceOf
              (g.board.get (calculateNewPosition { i := i, j := j } d c).i.toNat
                (calculateNewPosition { i := i, j := j } d c).j.toNat) player)) ∧
    (player ≠ g.currentTurn →
      applyMove g player move = .ok (g, .failure "Invalid move")) ∧
    (∀ c d, move = .obj c d → (c = none ∨ c = some "" ∨ d = none ∨ d = some "") →
      applyMove g player move = .ok (g, .failure "Invalid move")) ∧
    (∀ c d, player = g.currentTurn → move = .obj (some c) (some d) → c ≠ "" → d ≠ "" →
      (∀ i j : Nat, i < 5 → j < 5 → g.board.get i j ≠ some (pieceName player c)) →
      applyMove g player move = .ok (g, .failure "Character not found on board")) ∧
    (∀ c d, player = g.currentTurn → move = .obj (some c) (some d) → c ≠ "" → d ≠ "" →
      ∀ i j : Nat, FirstCell g.board (pieceName player c) i j →
        ¬ OnBoard (calculateNewPosition { i := i, j := j } d c) →
        applyMove g player move = .ok (g, .failure "Invalid move direction")) ∧
    (∀ c d, player = g.currentTurn → move = .obj (some c) (some d) → c ≠ "" → d ≠ "" →
      ∀ i j : Nat, FirstCell g.board (pieceName player c) i j →
        OnBoard (calculateNewPosition { i := i, j := j } d c) →
        HoldsPieceOf
          (g.board.get (calculateNewPosition { i := i, j := j } d c).i.toNat
            (calculateNewPosition { i := i, j := j } d c).j.toNat) player →
        applyMove g player move =
          .ok (g, .failure "Cannot move to a position occupied by your own piece")) := by
  refine ⟨⟨?_, ?_⟩, ?_, ?_, ?_, ?_, ?_⟩
  · rintro ⟨g', r, h, hs⟩
    rcases applyMove_ok_cases g g' player move r h with ⟨_, hr⟩ | ⟨ht, c, d, hm, hc, hd, hch⟩
    · subst hr; cases hs
    · obtain ⟨src, hfind, hv, ho⟩ := applyChecked_success g g' player c d r hch hs
      obtain ⟨i, j, rfl, hfirst⟩ := (findCharPos_eq_some_iff _ _ _).1 hfind
      refine ⟨ht.symm, c, d, hm, hc, hd, i, j, hfirst, (isValidPosition_iff _).1 hv, ?_⟩
      intro hown
      rw [(ownPiece_iff _ player hp).2 hown] at ho
      cases ho
  · rintro ⟨ht, c, d, rfl, hc, hd, i, j, hfirst, hon, hown⟩
    have hfind := (findCharPos_eq_some_iff g.board (pieceName player c) _).2
      ⟨i, j, rfl, hfirst⟩
    have hv := (isValidPosition_iff _).2 hon
    have ho : ownPiece (g.board.get (calculateNewPosition { i := i, j := j } d c).i.toNat
        (calculateNewPosition { i := i, j := j } d c).j.toNat) player = false := by
      cases hb : ownPiece (g.board.get (calculateNewPosition { i := i, j := j } d c).i.toNat
        (calculateNewPosition { i := i, j := j } d c).j.toNat) player with
      | false => rfl
      | true => exact absurd ((ownPiece_iff _ player hp).1 hb) hown
    rw [applyMove_obj_checked g player c d ht.symm hc hd,
      applyChecked_applied g player c d _ hfind hv ho]
    split
    · exact ⟨_, _, rfl, rfl⟩
    · exact ⟨_, _, rfl, rfl⟩
  · intro ht
    exact applyMove_of_ne_turn g player move (fun e => ht e.symm)
  · rintro c d rfl hcd
    apply applyMove_obj_falsy
    rcases hcd with rfl | rfl | rfl | rfl
    · exact Or.inl rfl
    · exact Or.inl rfl
    · exact Or.inr rfl
    · exact Or.inr rfl
  · rintro c d ht rfl hc hd hnone
    rw [applyMove_obj_checked g player c d ht.symm hc hd,
      applyChecked_notFound g player c d ((findCharPos_eq_none_iff _ _).2 hnone)]
  · rintro c d ht rfl hc hd i j hfirst hoff
    have hfind := (findCharPos_eq_some_iff g.board (pieceName player c) _).2
      ⟨i, j, rfl, hfirst⟩
    have hv : isValidPosition (calculateNewPosition { i := i, j := j } d c) = false := by
      cases hb : isValidPosition (calculateNewPosition { i := i, j := j } d c) with
      | false => rfl
      | true => exact absurd ((isValidPosition_iff _).1 hb) hoff
    rw [applyMove_obj_checked g player c d ht.symm hc hd,
      applyChecked_offBoard g player c d _ hfind hv]
  · rintro c d ht rfl hc hd i j hfirst hon hown
    have hfind := (findCharPos_eq_some_iff g.board (pieceName player c) _).2
      ⟨i, j, rfl, hfirst⟩
    rw [applyMove_obj_checked g player c d ht.symm hc hd,
      applyChecked_own g player c d _ hfind ((isValidPosition_iff _).2 hon)
        ((ownPiece_iff _ player hp).2 hown)]

/-- Witness for C4: in the initial game A's move of P1 forward passes the five
checks and succeeds. -/
theorem applyMove_succeeds_iff_witness :
    ("A" = "A" ∨ "A" = "B") ∧
      applyMove Game.new "A" (.obj (some "P1") (some "F")) =
        .ok ({ Game.new with
                board := (initializeBoard.set 4 0 none).set 3 0 (some "A-P1")
                currentTurn := "B" }, .moved "P1" "F") ∧
      ("A" = Game.new.currentTurn ∧
        ∃ c d, JsMove.obj (some "P1") (some "F") = .obj (some c) (some d) ∧ c ≠ "" ∧ d ≠ "" ∧
          ∃ i j : Nat, FirstCell Game.new.board (pieceName "A" c) i j ∧
            OnBoard (calculateNewPosition { i := i, j := j } d c) ∧
            ¬ HoldsPieceOf
              (Game.new.board.get (calculateNewPosition { i := i, j := j } d c).i.toNat
                (calculateNewPosition { i := i, j := j } d c).j.toNat) "A") :=
  ⟨Or.inl rfl, by decide,
    (applyMove_succeeds_iff Game.new "A" (.obj (some "P1") (some "F")) (Or.inl rfl)).1.1
      ⟨_, _, (by decide :
        applyMove Game.new "A" (.obj (some "P1") (some "F")) =
          .ok ({ Game.new with
                  board := (initializeBoard.set 4 0 none).set 3 0 (some "A-P1")
                  currentTurn := "B" }, .moved "P1" "F")), rfl⟩⟩

/-- C5: after a successful `applyMove(player, move)` whose destination (the
position computed from the cell where the piece was found) is on row 0 or row
4, `gameOver` is `true` and the result is `{ win: true, winner: player }`,
whoever moved and whichever edge was reached; when the destination is on row
1, 2 or 3 the result has `win: false` and `gameOver` keeps its value. -/
theorem applyMove_win_on_edge_rows (g g' : Game) (player : String) (move : JsMove)
    (r : MoveResult) (h : applyMove g player move = .ok (g', r))
    (hs : r.success = true) :
    ∃ c d src, move = .obj (some c) (some d) ∧
      findCharPos g.board (pieceName player c) = some src ∧
      OnBoard (calculateNewPosition src d c) ∧
      (((calculateNewPosition src d c).i = 0 ∨ (calculateNewPosition src d c).i = 4) →
        g'.gameOver = true ∧ r = .won player ∧ r.win = true ∧ r.winner = some player) ∧
      (((calculateNewPosition src d c).i = 1 ∨ (calculateNewPosition src d c).i = 2 ∨
          (calculateNewPosition src d c).i = 3) →
        r.win = false ∧ g'.gameOver = g.gameOver) := by
  rcases applyMove_ok_cases g g' player move r h with ⟨_, hr⟩ | ⟨_, c, d, hm, _, _, hch⟩
  · subst hr; cases hs
  · obtain ⟨src, hfind, hv, ho⟩ := applyChecked_success g g' player c d r hch hs
    refine ⟨c, d, src, hm, hfind, (isValidPosition_iff _).1 hv, ?_, ?_⟩
    · intro hrow
      have hw : checkWinCondition (calculateNewPosition src d c) = true := by
        rcases hrow with h0 | h4 <;> simp [checkWinCondition, BOARD_SIZE, *]
      rw [applyChecked_applied g player c d src hfind hv ho, if_pos hw] at hch
      cases hch
      exact ⟨rfl, rfl, rfl, rfl⟩
    · intro hrow
      have hw : checkWinCondition (calculateNewPosition src d c) = false := by
        rcases hrow with h1 | h2 | h3 <;> simp [checkWinCondition, BOARD_SIZE, *]
      rw [applyChecked_applied g player c d src hfind hv ho, hw] at hch
      cases hch
      exact ⟨rfl, rfl⟩

/-- Witness for C5: from the initial game A moves H2 to the right; the piece
goes from (4,2) to (4,3), on A's own home row, and A wins on the first move. -/
theorem applyMove_win_on_edge_rows_witness :
    findCharPos Game.new.board (pieceName "A" "H2") = some { i := 4, j := 2 } ∧
      calculateNewPosition { i := 4, j := 2 } "R" "H2" = { i := 4, j := 3 } ∧
      applyMove Game.new "A" (.obj (some "H2") (some "R")) =
        .ok ({ Game.new with
                board := (initializeBoard.set 4 2 none).set 4 3 (some "A-H2")
                gameOver := true }, .won "A") ∧
      ∃ c d src, JsMove.obj (some "H2") (some "R") = .obj (some c) (some d) ∧
        findCharPos Game.new.board (pieceName "A" c) = some src ∧
        OnBoard (calculateNewPosition src d c) ∧
        (((calculateNewPosition src d c).i = 0 ∨ (calculateNewPosition src d c).i = 4) →
          ({ Game.new with
              board := (initializeBoard.set 4 2 none).set 4 3 (some "A-H2")
              gameOver := true } : Game).gameOver = true ∧
          MoveResult.won "A" = .won "A" ∧ (MoveResult.won "A").win = true ∧
          (MoveResult.won "A").winner = some "A") ∧
        (((calculateNewPosition src d c).i = 1 ∨ (calculateNewPosition src d c).i = 2 ∨
            (calculateNewPosition src d c).i = 3) →
          (MoveResult.won "A").win = false ∧
          ({ Game.new with
              board := (initializeBoard.set 4 2 none).set 4 3 (some "A-H2")
              gameOver := true } : Game).gameOver = Game.new.gameOver) :=
  ⟨by decide, by decide, by decide,
    applyMove_win_on_edge_rows Game.new _ "A" (.obj (some "H2") (some "R")) (.won "A")
      (by decide) rfl⟩

/-- C6: for every sequence of `applyMove` calls starting from the initial game,
with `N` the number of calls that succeeded without a win, `currentTurn` at the
end is A when `N` is even and B when `N` is odd; and for any single call, a
failed or a winning call keeps `currentTurn` while a successful non-winning call
flips it to the other slot. -/
theorem currentTurn_parity (calls : List (String × JsMove)) :
    (runCalls Game.new calls).1.currentTurn =
        (if (runCalls Game.new calls).2 % 2 = 0 then "A" else "B") ∧
      ∀ (g g' : Game) (player : String) (move : JsMove) (r : MoveResult),
        applyMove g player move = .ok (g', r) →
          g'.currentTurn =
            if r.success = true ∧ r.win = false then opponent g.currentTurn
            else g.currentTurn := by
  refine ⟨?_, applyMove_currentTurn⟩
  have := runCalls_currentTurn calls Game.new (Or.inl rfl)
  rw [this]
  split <;> rfl

/-- C7: for a player in {A, B}, a move whose candidate destination (computed
from the cell where the piece was found, and on the board) holds a piece owned
by the player is rejected, and the game, its board included, is unchanged. -/
theorem applyMove_own_piece_rejected (g : Game) (player c d : String) (src : Position)
    (hp : player = "A" ∨ player = "B")
    (hsrc : findCharPos g.board (pieceName player c) = some src)
    (hon : OnBoard (calculateNewPosition src d c))
    (hown : HoldsPieceOf
      (g.board.get (calculateNewPosition src d c).i.toNat
        (calculateNewPosition src d c).j.toNat) player) :
    applyMove g player (.obj (some c) (some d)) =
      .ok (g, .failure
        (if player = g.currentTurn ∧ c ≠ "" ∧ d ≠ "" then
          "Cannot move to a position occupied by your own piece"
        else "Invalid move")) := by
  by_cases hcond : player = g.currentTurn ∧ c ≠ "" ∧ d ≠ ""
  · obtain ⟨ht, hc, hd⟩ := hcond
    rw [applyMove_obj_checked g player c d ht.symm hc hd,
      applyChecked_own g player c d src hsrc ((isValidPosition_iff _).2 hon)
        ((ownPiece_iff _ player hp).2 hown), if_pos ⟨ht, hc, hd⟩]
  · rw [if_neg hcond]
    by_cases ht : player = g.currentTurn
    · apply applyMove_obj_falsy
      by_cases hc : c = ""
      · exact Or.inl (by simp [truthy, hc])
      · by_cases hd : d = ""
        · exact Or.inr (by simp [truthy, hd])
        · exact absurd ⟨ht, hc, hd⟩ hcond
    · exact applyMove_of_ne_turn g player _ (fun e => ht e.symm)

/-- Witness for C7: in the initial game A's P1 at (4,0) moved to the right
would land on (4,1), where A's H1 stands; the move is rejected. -/
theorem applyMove_own_piece_rejected_witness :
    findCharPos Game.new.board (pieceName "A" "P1") = some { i := 4, j := 0 } ∧
      calculateNewPosition { i := 4, j := 0 } "R" "P1" = { i := 4, j := 1 } ∧
      Game.new.board.get 4 1 = some "A-H1" ∧
      applyMove Game.new "A" (.obj (some "P1") (some "R")) =
        .ok (Game.new, .failure
          (if "A" = Game.new.currentTurn ∧ "P1" ≠ "" ∧ "R" ≠ "" then
            "Cannot move to a position occupied by your own piece"
          else "Invalid move")) :=
  ⟨by decide, by decide, by decide,
    applyMove_own_piece_rejected Game.new "A" "P1" "R" { i := 4, j := 0 } (Or.inl rfl)
      (by decide) (by decide) ⟨"A-H1", by decide, by decide⟩⟩

/-- C8: for a player in {A, B}, after a successful `applyMove(player, move)`
whose destination cell held a piece of the opposing player, the destination
cell holds the mover's piece `player-character`, the captured piece is no longer
in that cell, the source cell is empty, and the number of non-null cells is
exactly one less than before the call. -/
theorem applyMove_capture (g g' : Game) (player c d : String) (src : Position)
    (r : MoveResult) (hp : player = "A" ∨ player = "B")
    (hsrc : findCharPos g.board (pieceName player c) = some src)
    (h : applyMove g player (.obj (some c) (some d)) = .ok (g', r))
    (hs : r.success = true)
    (hcap : HoldsPieceOf
      (g.board.get (calculateNewPosition src d c).i.toNat
        (calculateNewPosition src d c).j.toNat) (opponent player)) :
    g'.board.get (calculateNewPosition src d c).i.toNat
        (calculateNewPosition src d c).j.toNat = some (pieceName player c) ∧
      g'.board.get (calculateNewPosition src d c).i.toNat
        (calculateNewPosition src d c).j.toNat ≠
        g.board.get (calculateNewPosition src d c).i.toNat
          (calculateNewPosition src d c).j.toNat ∧
      ¬ HoldsPieceOf
        (g'.board.get (calculateNewPosition src d c).i.toNat
          (calculateNewPosition src d c).j.toNat) (opponent player) ∧
      g'.board.get src.i.toNat src.j.toNat = none ∧
      nonNullCount g'.board + 1 = nonNullCount g.board := by
  -- the board after the call
  have hboard : g'.board = (g.board.set src.i.toNat src.j.toNat none).set
      (calculateNewPosition src d c).i.toNat (calculateNewPosition src d c).j.toNat
      (some (pieceName player c)) := by
    rcases applyMove_ok_cases g g' player _ r h with ⟨_, hr⟩ | ⟨_, c', d', hm, _, _, hch⟩
    · subst hr; cases hs
    · cases hm
      obtain ⟨src', hfind, hv, ho⟩ := applyChecked_success g g' player c d r hch hs
      rw [hsrc] at hfind
      cases hfind
      rw [applyChecked_applied g player c d src hsrc hv ho] at hch
      split at hch <;> (cases hch; rfl)
  obtain ⟨i, j, rfl, hfirst⟩ := (findCharPos_eq_some_iff _ _ _).1 hsrc
  have hget : g.board.get i j = some (pieceName player c) := hfirst.2.2.1
  obtain ⟨s, hcell, hown⟩ := hcap
  generalize (calculateNewPosition { i := (i : Int), j := (j : Int) } d c).i.toNat = di at *
  generalize (calculateNewPosition { i := (i : Int), j := (j : Int) } d c).j.toNat = dj at *
  simp only [Int.toNat_ofNat] at hboard ⊢
  have howner := pieceOwner_pieceName player c hp
  have hsne : s ≠ pieceName player c := by
    rintro rfl
    rw [howner] at hown
    exact opponent_ne player hp (Option.some.inj hown).symm
  have hne : di ≠ i ∨ dj ≠ j := by
    by_contra hcon
    push_neg at hcon
    rw [hcon.1, hcon.2, hget] at hcell
    exact hsne (Option.some.inj hcell).symm
  have hne' : i ≠ di ∨ j ≠ dj := by
    rcases hne with h1 | h1
    · exact Or.inl (fun e => h1 e.symm)
    · exact Or.inr (fun e => h1 e.symm)
  have hsrcRange := Board.inRange_of_get g.board i j _ hget
  have hcell1 : (g.board.set i j none).get di dj = some s := by
    rw [Board.get_set_other _ _ _ _ _ _ hne, hcell]
  have hdstRange := Board.inRange_of_get (g.board.set i j none) di dj s hcell1
  have hdest : g'.board.get di dj = some (pieceName player c) := by
    rw [hboard, Board.get_set_same _ _ _ _ hdstRange.1 hdstRange.2]
  refine ⟨hdest, ?_, ?_, ?_, ?_⟩
  · rw [hdest, hcell]
    exact fun e => hsne (Option.some.inj e).symm
  · rintro ⟨s', hs', hown'⟩
    rw [hdest] at hs'
    cases hs'
    rw [howner] at hown'
    exact opponent_ne player hp (Option.some.inj hown').symm
  · rw [hboard, Board.get_set_other _ _ _ _ _ _ hne',
      Board.get_set_same _ _ _ _ hsrcRange.1 hsrcRange.2]
  · have h1 := nonNullCount_set g.board i j none hsrcRange.1 hsrcRange.2
    have h2 := nonNullCount_set (g.board.set i j none) di dj (some (pieceName player c))
      hdstRange.1 hdstRange.2
    rw [hget] at h1
    rw [hcell1] at h2
    rw [hboard]
    simp at h1 h2
    omega

/-- Witness for C8: after seven alternating moves from the initial game, B
moves its P1 from (2,3) to the left onto A's P1 at (2,2); afterwards (2,2)
holds `B-P1`, (2,3) is empty and five of the six pieces remain. -/
theorem applyMove_capture_witness :
    (runCalls Game.new captureCalls).1 = captureGame ∧
      calculateNewPosition { i := 2, j := 3 } "L" "P1" = { i := 2, j := 2 } ∧
      captureGame.board.get 2 2 = some "A-P1" ∧
      nonNullCount captureGame.board = 6 ∧
      (capturedGame.board.get 2 2 = some "B-P1" ∧
        capturedGame.board.get 2 2 ≠ captureGame.board.get 2 2 ∧
        ¬ HoldsPieceOf (capturedGame.board.get 2 2) (opponent "B") ∧
        capturedGame.board.get 2 3 = none ∧
        nonNullCount capturedGame.board + 1 = nonNullCount captureGame.board) :=
  ⟨by decide, by decide, by decide, by decide,
    applyMove_capture captureGame capturedGame "B" "P1" "L" { i := 2, j := 3 }
      (.moved "P1" "L") (Or.inr rfl) (by decide) (by decide) rfl
      ⟨"A-P1", by decide, by decide⟩⟩

/-- C9: for a player in {A, B} who is to move and a kind other than `'P1'`
whose piece `player-kind` is on the board, `calculateNewPosition` with direction
F or B returns the position it was given, the cell found for the piece holds
the mover's own piece, and `applyMove(player, {character: kind, direction})`
fails with the game unchanged (with the own-piece message for a non-empty
kind). -/
theorem applyMove_straight_only (g : Game) (player kind d : String) (i j : Nat)
    (hp : player = "A" ∨ player = "B") (ht : player = g.currentTurn)
    (hk : kind ≠ "P1") (hd : d = "F" ∨ d = "B")
    (hi : i < 5) (hj : j < 5)
    (hcell : g.board.get i j = some (pieceName player kind)) :
    (∀ pos : Position, calculateNewPosition pos d kind = pos) ∧
      (∃ src, findCharPos g.board (pieceName player kind) = some src ∧
        HoldsPieceOf (g.board.get (calculateNewPosition src d kind).i.toNat
          (calculateNewPosition src d kind).j.toNat) player) ∧
      applyMove g player (.obj (some kind) (some d)) =
        .ok (g, .failure
          (if kind = "" then "Invalid move"
           else "Cannot move to a position occupied by your own piece")) := by
  have hcalc : ∀ pos : Position, calculateNewPosition pos d kind = pos := by
    intro pos
    rcases hd with rfl | rfl <;> simp [calculateNewPosition, hk]
  have hdne : d ≠ "" := by
    rcases hd with rfl | rfl <;> decide
  obtain ⟨src, hfind⟩ := findCharPos_isSome_of_get g.board _ i j hi hj hcell
  obtain ⟨i', j', rfl, hfirst⟩ := (findCharPos_eq_some_iff _ _ _).1 hfind
  have hown : HoldsPieceOf (g.board.get
      (calculateNewPosition { i := (i' : Int), j := (j' : Int) } d kind).i.toNat
      (calculateNewPosition { i := (i' : Int), j := (j' : Int) } d kind).j.toNat) player := by
    rw [hcalc]
    exact ⟨_, hfirst.2.2.1, pieceOwner_pieceName player kind hp⟩
  refine ⟨hcalc, ⟨_, hfind, hown⟩, ?_⟩
  by_cases hke : kind = ""
  · rw [if_pos hke]
    exact applyMove_obj_falsy g player _ _ (Or.inl (by simp [truthy, hke]))
  · rw [if_neg hke, applyMove_obj_checked g player kind d ht.symm hke hdne]
    have hon : OnBoard (calculateNewPosition { i := (i' : Int), j := (j' : Int) } d kind) := by
      rw [hcalc]
      have h1 := hfirst.1
      have h2 := hfirst.2.1
      simp only [BOARD_SIZE] at h1 h2
      exact ⟨by simp, by simp; omega, by simp, by simp; omega⟩
    rw [applyChecked_own g player kind d _ hfind ((isValidPosition_iff _).2 hon)
      ((ownPiece_iff _ player hp).2 hown)]

/-- Witness for C9: in the initial game A's H1 stands on (4,1); moved in
direction F it stays where it is and the move is rejected. -/
theorem applyMove_straight_only_witness :
    Game.new.board.get 4 1 = some (pieceName "A" "H1") ∧
      ((∀ pos : Position, calculateNewPosition pos "F" "H1" = pos) ∧
        (∃ src, findCharPos Game.new.board (pieceName "A" "H1") = some src ∧
          HoldsPieceOf (Game.new.board.get (calculateNewPosition src "F" "H1").i.toNat
            (calculateNewPosition src "F" "H1").j.toNat) "A") ∧
        applyMove Game.new "A" (.obj (some "H1") (some "F")) =
          .ok (Game.new, .failure
            (if "H1" = "" then "Invalid move"
             else "Cannot move to a position occupied by your own piece"))) :=
  ⟨by decide,
    applyMove_straight_only Game.new "A" "H1" "F" 4 1 (Or.inl rfl) (by decide) (by decide)
      (Or.inl rfl) (by decide) (by decide) (by decide)⟩

/-- C11, as stated, fails on the code: the claim puts B's pieces on columns 1, 2
and 3 of row 0 and leaves (0,4) empty, but `initializeBoard` leaves (0,1) empty
and puts `B-P1` on (0,4). -/
theorem initializeBoard_not_centered :
    initializeBoard.get 0 1 = none ∧ initializeBoard.get 0 4 = some "B-P1" ∧
      ¬ ((∀ j, 1 ≤ j → j ≤ 3 → HoldsPieceOf (initializeBoard.get 0 j) "B") ∧
        (∀ j, j ≤ 2 → HoldsPieceOf (initializeBoard.get 4 j) "A") ∧
        (∀ i j, i < 5 → j < 5 → ¬ (i = 0 ∧ 1 ≤ j ∧ j ≤ 3) → ¬ (i = 4 ∧ j ≤ 2) →
          initializeBoard.get i j = none)) := by
  refine ⟨by decide, by decide, ?_⟩
  rintro ⟨h, _, _⟩
  exact absurd (h 1 (le_refl _) (by decide)) (by decide)

/-- C11, amended: the board returned by `initializeBoard` is 5x5 with exactly
six pieces: B's three pieces are adjacent on row 0 at the three right-most
columns 2, 3, 4 (`B-H2`, `B-H1`, `B-P1`), A's three pieces are adjacent on row 4
at the three left-most columns 0, 1, 2 (`A-P1`, `A-H1`, `A-H2`), and every other
cell is null. -/
theorem initializeBoard_layout :
    initializeBoard =
        [[none, none, some "B-H2", some "B-H1", some "B-P1"],
         [none, none, none, none, none],
         [none, none, none, none, none],
         [none, none, none, none, none],
         [some "A-P1", some "A-H1", some "A-H2", none, none]] ∧
      WellFormed initializeBoard ∧ nonNullCount initializeBoard = 6 ∧
      (∀ j, 2 ≤ j → j ≤ 4 → HoldsPieceOf (initializeBoard.get 0 j) "B") ∧
      (∀ j, j ≤ 2 → HoldsPieceOf (initializeBoard.get 4 j) "A") ∧
      (∀ i j, ¬ (i = 0 ∧ 2 ≤ j ∧ j ≤ 4) → ¬ (i = 4 ∧ j ≤ 2) →
        initializeBoard.get i j = none) := by
  refine ⟨by decide, by decide, by decide, ?_, ?_, ?_⟩
  · intro j h1 h2
    interval_cases j <;> decide
  · intro j h
    interval_cases j <;> decide
  · intro i j h1 h2
    have hfin : ∀ i j : Fin 5, ¬ (i.val = 0 ∧ 2 ≤ j.val ∧ j.val ≤ 4) →
        ¬ (i.val = 4 ∧ j.val ≤ 2) → initializeBoard.get i j = none := by decide
    cases hc : initializeBoard.get i j with
    | none => rfl
    | some s =>
      obtain ⟨hi, hj⟩ := wellFormed_initializeBoard.bound_of_get _ i j s hc
      have := hfin ⟨i, hi⟩ ⟨j, hj⟩ h1 h2
      simp only at this
      rw [hc] at this
      cases this

/-- C12: in a game whose board is 5x5 and whose turn is A or B, after a
successful `applyMove(player, move)` the cell where the piece was found is
null, the destination cell holds the string `player-character`, and every
other cell of the board is as before. -/
theorem applyMove_frame (g g' : Game) (player : String) (move : JsMove) (r : MoveResult)
    (hw : WellFormed g.board) (ht : g.currentTurn = "A" ∨ g.currentTurn = "B")
    (h : applyMove g player move = .ok (g', r)) (hs : r.success = true) :
    ∃ c d src, move = .obj (some c) (some d) ∧
      findCharPos g.board (pieceName player c) = some src ∧
      g'.board.get src.i.toNat src.j.toNat = none ∧
      g'.board.get (calculateNewPosition src d c).i.toNat
        (calculateNewPosition src d c).j.toNat = some (pieceName player c) ∧
      ∀ x y, ¬ (x = src.i.toNat ∧ y = src.j.toNat) →
        ¬ (x = (calculateNewPosition src d c).i.toNat ∧
            y = (calculateNewPosition src d c).j.toNat) →
        g'.board.get x y = g.board.get x y := by
  obtain ⟨c, d, i, j, hm, _, _, hturn, hfirst, hon, hown, hb, _⟩ :=
    applyMove_success_shape g g' player move r h hs
  have hp : player = "A" ∨ player = "B" := by rw [← hturn]; exact ht
  have hfind := (findCharPos_eq_some_iff g.board (pieceName player c) _).2
    ⟨i, j, rfl, hfirst⟩
  refine ⟨c, d, _, hm, hfind, ?_⟩
  obtain ⟨hdi, hdj⟩ := OnBoard.toNat_lt _ hon
  generalize (calculateNewPosition { i := (i : Int), j := (j : Int) } d c).i.toNat = di at *
  generalize (calculateNewPosition { i := (i : Int), j := (j : Int) } d c).j.toNat = dj at *
  simp only [Int.toNat_ofNat]
  have hi : i < 5 := hfirst.1
  have hj : j < 5 := hfirst.2.1
  have hsrc : g.board.get i j = some (pieceName player c) := hfirst.2.2.1
  have hne : ¬ (i = di ∧ j = dj) := by
    rintro ⟨rfl, rfl⟩
    have : ownPiece (g.board.get i j) player = true :=
      (ownPiece_iff _ player hp).2 ⟨_, hsrc, pieceOwner_pieceName player c hp⟩
    rw [hown] at this
    cases this
  have hget : ∀ x y, g'.board.get x y =
      if x = di ∧ y = dj then some (pieceName player c)
      else if x = i ∧ y = j then none else g.board.get x y := by
    intro x y
    rw [hb, Board.get_set _ (hw.set _ _ _ _) di dj x y _ hdi hdj,
      Board.get_set _ hw i j x y _ hi hj]
  refine ⟨?_, ?_, ?_⟩
  · rw [hget, if_neg hne, if_pos ⟨rfl, rfl⟩]
  · rw [hget, if_pos ⟨rfl, rfl⟩]
  · intro x y h1 h2
    rw [hget, if_neg h2, if_neg h1]

/-- Witness for C12: on the initial board A's P1 at (4,0) moved in direction F
ends at (3,0), (4,0) becomes empty, `currentTurn` becomes B and `gameOver`
stays `false`. -/
theorem applyMove_frame_witness :
    applyMove Game.new "A" (.obj (some "P1") (some "F")) =
        .ok (openedGame, .moved "P1" "F") ∧
      openedGame.currentTurn = "B" ∧ openedGame.gameOver = false ∧
      Game.new.board.get 4 0 = some "A-P1" ∧
      openedGame.board.get 4 0 = none ∧ openedGame.board.get 3 0 = some "A-P1" ∧
      ∃ c d src, JsMove.obj (some "P1") (some "F") = .obj (some c) (some d) ∧
        findCharPos Game.new.board (pieceName "A" c) = some src ∧
        openedGame.board.get src.i.toNat src.j.toNat = none ∧
        openedGame.board.get (calculateNewPosition src d c).i.toNat
          (calculateNewPosition src d c).j.toNat = some (pieceName "A" c) ∧
        ∀ x y, ¬ (x = src.i.toNat ∧ y = src.j.toNat) →
          ¬ (x = (calculateNewPosition src d c).i.toNat ∧
              y = (calculateNewPosition src d c).j.toNat) →
          openedGame.board.get x y = Game.new.board.get x y :=
  ⟨by decide, by decide, by decide, by decide, by decide, by decide,
    applyMove_frame Game.new openedGame "A" (.obj (some "P1") (some "F")) (.moved "P1" "F")
      (by decide) (Or.inl rfl) (by decide) rfl⟩

/-- C13: from the initial game B's P1 starts at (0,4); in the eight alternating
calls where A moves its P1 with F, R, L, R and B moves its P1 four times in
direction B, all of A's moves and the first three of B's succeed with
`win: false`, B's P1 visits (1,4), (2,4), (3,4) and (4,4), and the fourth B
move, arriving on row 4, succeeds with `win: true`, winner B, and sets
`gameOver`. -/
theorem edge_run_wins :
    findCharPos Game.new.board "B-P1" = some { i := 0, j := 4 } ∧
      runResults Game.new edgeRunCalls =
        [some (.moved "P1" "F"), some (.moved "P1" "B"), some (.moved "P1" "R"),
         some (.moved "P1" "B"), some (.moved "P1" "L"), some (.moved "P1" "B"),
         some (.moved "P1" "R"), some (.won "B")] ∧
      findCharPos (runCalls Game.new (edgeRunCalls.take 2)).1.board "B-P1"
        = some { i := 1, j := 4 } ∧
      findCharPos (runCalls Game.new (edgeRunCalls.take 4)).1.board "B-P1"
        = some { i := 2, j := 4 } ∧
      findCharPos (runCalls Game.new (edgeRunCalls.take 6)).1.board "B-P1"
        = some { i := 3, j := 4 } ∧
      findCharPos (runCalls Game.new edgeRunCalls).1.board "B-P1"
        = some { i := 4, j := 4 } ∧
      (runCalls Game.new (edgeRunCalls.take 7)).1.gameOver = false ∧
      (runCalls Game.new edgeRunCalls).1.gameOver = true ∧
      (MoveResult.won "B").success = true ∧ (MoveResult.won "B").win = true ∧
      (MoveResult.won "B").winner = some "B" := by
  refine ⟨by decide, by decide, by decide, by decide, by decide, by decide, by decide,
    by decide, rfl, rfl, rfl⟩

/-- C14: `addPlayer` stores the channel in slot A and returns `'A'` when slot
A is empty; otherwise stores it in slot B and returns `'B'` when slot B is
empty; otherwise returns `null`, the game with both slots is left as it was and
the connection handler answers `'Game is full'` and closes the channel.  In
particular, of three channels connecting to a new game the first two hold
slots A and B after the third has been refused. -/
theorem addPlayer_slots (g : Game) (ws : Channel) :
    (g.players.A = none →
      addPlayer g ws =
        ({ g with players := { g.players with A := some ws } }, some "A")) ∧
    (g.players.A ≠ none → g.players.B = none →
      addPlayer g ws =
        ({ g with players := { g.players with B := some ws } }, some "B")) ∧
    (g.players.A ≠ none → g.players.B ≠ none →
      addPlayer g ws = (g, none) ∧
        onConnection g ws = (g, [(ws, .error "Game is full")], true)) ∧
    (∀ a b c : Channel,
      (runSession Game.new [.connect a, .connect b]).players = { A := some a, B := some b } ∧
      onConnection (runSession Game.new [.connect a, .connect b]) c =
        (runSession Game.new [.connect a, .connect b], [(c, .error "Game is full")], true) ∧
      (runSession Game.new [.connect a, .connect b, .connect c]).players =
        { A := some a, B := some b }) := by
  refine ⟨?_, ?_, ?_, ?_⟩
  · intro hA
    simp [addPlayer, hA]
  · intro hA hB
    simp [addPlayer, hA, hB]
  · intro hA hB
    simp [onConnection, addPlayer, hA, hB]
  · intro a b c
    simp [runSession, onConnection, addPlayer, Game.new]

/-- C15, as stated, fails on the code: after channels 1 and 2 have taken slots
A and B and channel 1 has disconnected, slot A is empty, and the next
connecting channel 3 is assigned the vacated slot A. -/
theorem vacated_slot_reassigned :
    (runSession Game.new [.connect 1, .connect 2]).players = { A := some 1, B := some 2 } ∧
      (runSession Game.new [.connect 1, .connect 2, .close 1]).players =
        { A := none, B := some 2 } ∧
      (addPlayer (runSession Game.new [.connect 1, .connect 2, .close 1]) 3).2 = some "A" ∧
      (runSession Game.new [.connect 1, .connect 2, .close 1, .connect 3]).players =
        { A := some 3, B := some 2 } := by
  decide

/-- C15, amended: once the channel holding a slot has disconnected, the slot is
cleared and stays empty through every later disconnect and every `applyMove`
call, until a channel connects: the next connecting channel is assigned the
vacated slot when that slot is A, and when it is B and slot A is occupied. -/
theorem vacated_slot_until_connect (g : Game) (ws next : Channel) (closes : List Channel) :
    (g.players.A = some ws →
      (closes.foldl onClose (onClose g ws)).players.A = none ∧
      (addPlayer (closes.foldl onClose (onClose g ws)) next).2 = some "A" ∧
      (addPlayer (closes.foldl onClose (onClose g ws)) next).1.players.A = some next) ∧
    (g.players.B = some ws →
      (closes.foldl onClose (onClose g ws)).players.B = none ∧
      ((closes.foldl onClose (onClose g ws)).players.A ≠ none →
        (addPlayer (closes.foldl onClose (onClose g ws)) next).2 = some "B" ∧
        (addPlayer (closes.foldl onClose (onClose g ws)) next).1.players.B = some next)) ∧
    (∀ (player : String) (move : JsMove) (g' : Game) (r : MoveResult),
      applyMove g player move = .ok (g', r) → g'.players = g.players) := by
  refine ⟨?_, ?_, fun player move g' r h => applyMove_players g g' player move r h⟩
  · intro hA
    have h0 : (onClose g ws).players.A = none := by
      rw [onClose_players_A, if_pos hA]
    have h1 := foldl_onClose_A closes _ h0
    refine ⟨h1, ?_, ?_⟩ <;> simp [addPlayer, h1]
  · intro hB
    have h0 : (onClose g ws).players.B = none := by
      rw [onClose_players_B, if_pos hB]
    have h1 := foldl_onClose_B closes _ h0
    refine ⟨h1, ?_⟩
    intro hA
    constructor <;> simp [addPlayer, h1, hA]

/-- C16, evaluated on the code: when it is the caller's turn and the `move` of
the message is missing or `null`, `applyMove` throws a `TypeError` (the read of
`move.character` in `isValidMove`) instead of returning a result object, and the
exception leaves the message handler.  Shown for every game, and for the
message `{"type":"move"}` sent by the holder of slot A in the initial game. -/
theorem applyMove_throws_on_missing_move :
    applyMove Game.new "A" .undefined = .error .typeError ∧
      applyMove Game.new "A" .null = .error .typeError ∧
      onMessage Game.new [{ ws := 1, isOpen := true }] 1 "A"
        (.json (.value (some "move") .undefined)) = .error .typeError ∧
      ∀ g : Game, applyMove g g.currentTurn .undefined = .error .typeError ∧
        applyMove g g.currentTurn .null = .error .typeError := by
  refine ⟨by decide, by decide, by decide, ?_⟩
  intro g
  constructor <;> simp [applyMove, isValidMove]

/-- C17, as stated, fails on the code: for a text that is not valid JSON the
handler raises the `SyntaxError` of `JSON.parse`; for the JSON text `null` it
raises a `TypeError` at `data.type`; and for the message
`{"type":"move","move":{"character":{"toString":1},"direction":"F"}}` sent by
the slot to move, whose `character` cannot be converted to a string, it raises
the `TypeError` of the template literal of line 68. -/
theorem onMessageRaw_throws_on_bad_text :
    onMessageRaw Game.new [{ ws := 1, isOpen := true }] 1 "A" .notJson
        = .error .syntaxError ∧
      onMessageRaw Game.new [{ ws := 1, isOpen := true }] 1 "A" (.json .null)
        = .error .typeError ∧
      onMessageRaw Game.new [{ ws := 1, isOpen := true }] 1 "A"
        (.json (.value (some "move") (.obj (.other true none) (.str "F"))))
        = .error .typeError := by
  decide

/-- C17, amended: for every text message that is valid JSON with a value other
than `null`, the message handler completes without raising an exception when
the message is not a `'move'` message, or its sender is not the slot to move,
or its `move` is a value other than `undefined` and `null` whose `character` or
`direction` is falsy or whose `character` can be converted to a string; text
that is not valid JSON and the JSON text `null` make the handler raise. -/
theorem onMessageRaw_completes (g : Game) (clients : List Client) (ws : Channel)
    (player : String) (type : Option String) (move : JsMoveRaw)
    (h : type ≠ some "move" ∨ player ≠ g.currentTurn ∨
      ∃ c d, move = .obj c d ∧ (c.toStr ≠ none ∨ c.truthy = false ∨ d.truthy = false)) :
    (∃ out, onMessageRaw g clients ws player (.json (.value type move)) = .ok out) ∧
      onMessageRaw g clients ws player .notJson = .error .syntaxError ∧
      onMessageRaw g clients ws player (.json .null) = .error .typeError := by
  refine ⟨?_, rfl, rfl⟩
  by_cases ht : type = some "move"
  · rcases h with h | h
    · exact absurd ht h
    · obtain ⟨g', r, hr⟩ := applyMoveRaw_ok g player move h
      cases r <;> simp [onMessageRaw, ht, hr]
  · simp [onMessageRaw, ht]

/-- Witness for C17: in the initial game the holder of slot A sends a `'move'`
message whose `character` is the array `["P1"]`, which converts to the string
`P1`, with direction `R`; the handler completes, answering with the own-piece
error (the piece found is A's P1 and (4,1) holds A's H1). -/
theorem onMessageRaw_completes_witness :
    onMessageRaw Game.new [{ ws := 1, isOpen := true }] 1 "A"
        (.json (.value (some "move") (.obj (.other true (some "P1")) (.str "R")))) =
        .ok (Game.new,
          [(1, .error "Cannot move to a position occupied by your own piece")]) ∧
      ((∃ out, onMessageRaw Game.new [{ ws := 1, isOpen := true }] 1 "A"
          (.json (.value (some "move") (.obj (.other true (some "P1")) (.str "R"))))
          = .ok out) ∧
        onMessageRaw Game.new [{ ws := 1, isOpen := true }] 1 "A" .notJson
          = .error .syntaxError ∧
        onMessageRaw Game.new [{ ws := 1, isOpen := true }] 1 "A" (.json .null)
          = .error .typeError) :=
  ⟨by decide,
    onMessageRaw_completes Game.new [{ ws := 1, isOpen := true }] 1 "A" (some "move")
      (.obj (.other true (some "P1")) (.str "R"))
      (Or.inr (Or.inr ⟨_, _, rfl, Or.inl (by decide)⟩))⟩

/-- C18: for an inbound `'move'` message from the channel `ws` bound to the
slot `player`, when `applyMove` returns a failure the handler sends exactly one
message, `{type: 'error', message}` with the failure message, to `ws` and to no
other channel, and the game is unchanged; when `applyMove` succeeds the handler
sends one and the same message to every open channel of `wss.clients` and to
no other, carrying the new board, the current turn and the submitted move, with
type `'win'` and winner the mover when the move wins, and type `'update'` and
winner `null` otherwise. -/
theorem onMessage_move (g g' : Game) (clients : List Client) (ws : Channel)
    (player : String) (move : JsMove) (r : MoveResult)
    (h : applyMove g player move = .ok (g', r)) :
    (r.success = false →
      ∃ message, r = .failure message ∧ g' = g ∧
        onMessage g clients ws player (.json (.value (some "move") move)) =
          .ok (g, [(ws, .error message)])) ∧
    (r.success = true →
      ∃ out, onMessage g clients ws player (.json (.value (some "move") move)) =
          .ok (g', out) ∧
        out.map Prod.fst = (clients.filter (fun client => client.isOpen)).map Client.ws ∧
        (∀ dest, dest ∈ out.map Prod.fst ↔
          ∃ client ∈ clients, client.isOpen = true ∧ client.ws = dest) ∧
        (∀ sent ∈ out, sent.2 =
          OutMsg.state (if r.win then "win" else "update") g'.board g'.currentTurn move
            (if r.win then some player else none)) ∧
        (r.win = true → ∀ sent ∈ out, sent.2 =
          OutMsg.state "win" g'.board g'.currentTurn move (some player)) ∧
        (r.win = false → ∀ sent ∈ out, sent.2 =
          OutMsg.state "update" g'.board g'.currentTurn move none)) := by
  constructor
  · intro hs
    cases r with
    | failure message =>
      have hg := applyMove_failure_same g g' player move _ h rfl
      subst hg
      exact ⟨message, rfl, rfl, by simp [onMessage, h]⟩
    | won w => cases hs
    | moved c d => cases hs
  · intro hs
    have hout : onMessage g clients ws player (.json (.value (some "move") move)) =
        .ok (g', (clients.filter (fun client => client.isOpen)).map (fun client =>
          (client.ws,
            OutMsg.state (if r.win then "win" else "update") g'.board g'.currentTurn move
              (if r.win then some player else none)))) := by
      cases r with
      | failure message => cases hs
      | won w => simp [onMessage, h]
      | moved c d => simp [onMessage, h]
    refine ⟨_, hout, ?_, ?_, ?_, ?_, ?_⟩
    · simp [List.map_map, Function.comp_def]
    · intro dest
      simp only [List.map_map, List.mem_map, List.mem_filter, Function.comp_apply]
      constructor
      · rintro ⟨client, ⟨hmem, hopen⟩, rfl⟩
        exact ⟨client, hmem, hopen, rfl⟩
      · rintro ⟨client, hmem, hopen, rfl⟩
        exact ⟨client, ⟨hmem, hopen⟩, rfl⟩
    · intro sent hsent
      obtain ⟨client, _, rfl⟩ := List.mem_map.1 hsent
      rfl
    · intro hw sent hsent
      obtain ⟨client, _, rfl⟩ := List.mem_map.1 hsent
      simp [hw]
    · intro hw sent hsent
      obtain ⟨client, _, rfl⟩ := List.mem_map.1 hsent
      simp [hw]

/-- Witness for C18: in the initial game, with channels 1 and 2 open and
channel 3 not open, the move of A's P1 forward sent by channel 1 is broadcast
as an `'update'` to channels 1 and 2 only. -/
theorem onMessage_move_witness :
    applyMove Game.new "A" (.obj (some "P1") (some "F")) =
        .ok (openedGame, .moved "P1" "F") ∧
      onMessage Game.new
          [{ ws := 1, isOpen := true }, { ws := 2, isOpen := true },
            { ws := 3, isOpen := false }] 1 "A"
          (.json (.value (some "move") (.obj (some "P1") (some "F")))) =
        .ok (openedGame,
          [(1, .state "update" openedGame.board "B" (.obj (some "P1") (some "F")) none),
           (2, .state "update" openedGame.board "B" (.obj (some "P1") (some "F")) none)]) ∧
      ∃ out, onMessage Game.new
          [{ ws := 1, isOpen := true }, { ws := 2, isOpen := true },
            { ws := 3, isOpen := false }] 1 "A"
          (.json (.value (some "move") (.obj (some "P1") (some "F")))) =
          .ok (openedGame, out) ∧
        out.map Prod.fst = [1, 2] := by
  refine ⟨by decide, by decide, ?_⟩
  obtain ⟨out, hout, hdest, _⟩ :=
    (onMessage_move Game.new openedGame
      [{ ws := 1, isOpen := true }, { ws := 2, isOpen := true },
        { ws := 3, isOpen := false }] 1 "A"
      (.obj (some "P1") (some "F")) (.moved "P1" "F") (by decide)).2 rfl
  exact ⟨out, hout, by rw [hdest]; decide⟩

/-- C19: in every state reached from the initial game by a sequence of
`applyMove` calls (with any players and any moves), every non-null board cell
holds one of the six initial piece strings, no string is held by two cells, the
board is still 5x5, and so the lookup of a piece is never ambiguous: the cell
found by the search is the only cell holding the string. -/
theorem reachable_pieces (calls : List (String × JsMove)) :
    WellFormed (runCalls Game.new calls).1.board ∧
      (∀ i j s, (runCalls Game.new calls).1.board.get i j = some s →
        s ∈ ["A-P1", "A-H1", "A-H2", "B-P1", "B-H1", "B-H2"]) ∧
      (∀ i j i' j' s, (runCalls Game.new calls).1.board.get i j = some s →
        (runCalls Game.new calls).1.board.get i' j' = some s → i = i' ∧ j = j') ∧
      (∀ target p (i j : Nat),
        findCharPos (runCalls Game.new calls).1.board target = some p →
        (runCalls Game.new calls).1.board.get i j = some target →
        p = { i := i, j := j }) := by
  have hinv := runCalls_induction
    (fun g => WellFormed g.board ∧ PiecesOk g.board)
    (fun g g' player move r hg h =>
      ⟨applyMove_wellFormed g g' player move r h hg.1,
        applyMove_piecesOk g g' player move r h hg.1 hg.2⟩)
    calls Game.new ⟨wellFormed_initializeBoard, piecesOk_initializeBoard⟩
  obtain ⟨hw, hmem, huniq⟩ := hinv
  refine ⟨hw, hmem, huniq, ?_⟩
  intro target p i j hfind hget
  obtain ⟨i', j', rfl, hfirst⟩ := (findCharPos_eq_some_iff _ _ _).1 hfind
  obtain ⟨rfl, rfl⟩ := huniq i' j' i j target hfirst.2.2.1 hget
  rfl

/-- C20: for a player in {A, B} who is to move, a non-empty character whose
piece `player-character` is on the board, and a non-empty direction that is
none of L, R, F, B, FL, FR, BL, BR, `calculateNewPosition` returns the position
it was given and `applyMove` fails with the own-piece message, the game (board,
`currentTurn`, `gameOver`) being unchanged. -/
theorem applyMove_unknown_direction (g : Game) (player character d : String) (i j : Nat)
    (hp : player = "A" ∨ player = "B") (ht : player = g.currentTurn)
    (hc : character ≠ "") (hd : d ≠ "")
    (hdir : d ∉ ["L", "R", "F", "B", "FL", "FR", "BL", "BR"])
    (hi : i < 5) (hj : j < 5)
    (hcell : g.board.get i j = some (pieceName player character)) :
    (∀ pos : Position, calculateNewPosition pos d character = pos) ∧
      applyMove g player (.obj (some character) (some d)) =
        .ok (g, .failure "Cannot move to a position occupied by your own piece") := by
  have hcalc : ∀ pos : Position, calculateNewPosition pos d character = pos := by
    intro pos
    simp only [List.mem_cons, List.mem_singleton, List.not_mem_nil, or_false, not_or] at hdir
    obtain ⟨h1, h2, h3, h4, h5, h6, h7, h8⟩ := hdir
    simp [calculateNewPosition, h1, h2, h3, h4, h5, h6, h7, h8]
  refine ⟨hcalc, ?_⟩
  obtain ⟨src, hfind⟩ := findCharPos_isSome_of_get g.board _ i j hi hj hcell
  obtain ⟨i', j', rfl, hfirst⟩ := (findCharPos_eq_some_iff _ _ _).1 hfind
  have hown : HoldsPieceOf (g.board.get
      (calculateNewPosition { i := (i' : Int), j := (j' : Int) } d character).i.toNat
      (calculateNewPosition { i := (i' : Int), j := (j' : Int) } d character).j.toNat)
      player := by
    rw [hcalc]
    exact ⟨_, hfirst.2.2.1, pieceOwner_pieceName player character hp⟩
  have hon : OnBoard
      (calculateNewPosition { i := (i' : Int), j := (j' : Int) } d character) := by
    rw [hcalc]
    have h1 := hfirst.1
    have h2 := hfirst.2.1
    simp only [BOARD_SIZE] at h1 h2
    exact ⟨by simp, by simp; omega, by simp, by simp; omega⟩
  rw [applyMove_obj_checked g player character d ht.symm hc hd,
    applyChecked_own g player character d _ hfind ((isValidPosition_iff _).2 hon)
      ((ownPiece_iff _ player hp).2 hown)]

/-- Witness for C20: in the initial game A asks to move its P1 in the
direction `'X'`; the piece stays on (4,0) and the move is rejected. -/
theorem applyMove_unknown_direction_witness :
    Game.new.board.get 4 0 = some (pieceName "A" "P1") ∧
      ((∀ pos : Position, calculateNewPosition pos "X" "P1" = pos) ∧
        applyMove Game.new "A" (.obj (some "P1") (some "X")) =
          .ok (Game.new,
            .failure "Cannot move to a position occupied by your own piece")) :=
  ⟨by decide,
    applyMove_unknown_direction Game.new "A" "P1" "X" 4 0 (Or.inl rfl) (by decide)
      (by decide) (by decide) (by decide) (by decide) (by decide) (by decide)⟩

end Server
